import Mathlib

/-!
Verification of the grocery-app repository (CSV importer and image resolver)
against its natural-language specification.

The two Python scripts, `scripts/import_grocery_csv.py` and
`scripts/enrich_product_images.py`, are shallowly embedded below.  Pure string
manipulation is translated to functions on `List Char`, SQLite state to an
explicit `Db` record, floating-point arithmetic to `ℚ`, and the external HTTP
catalogs to oracle parameters (a failed request is the oracle returning
`none`).  Python truthiness on optional strings is modelled explicitly.
-/

/-! ## Python string primitives -/

/-- The ASCII whitespace characters recognised by Python's `str.strip` and the
regex class `\s` (the embedding restricts to ASCII input). -/
def pyIsSpace (c : Char) : Bool :=
  c == ' ' || c == '\t' || c == '\n' || c == '\r' || c == '\x0b' || c == '\x0c'

/-- Python `str.strip()` on a character list. -/
def pyStripL (l : List Char) : List Char :=
  ((l.dropWhile pyIsSpace).reverse.dropWhile pyIsSpace).reverse

/-- Python `str.strip()`. -/
def pyStrip (s : String) : String :=
  String.mk (pyStripL s.data)

/-- Python `str.lower()` (ASCII letters). -/
def pyLower (s : String) : String :=
  String.mk (s.data.map Char.toLower)

/-- Python `x or d` where `x` is an optional string: `None` and `""` are
falsy, any other string is returned as-is. -/
def pyOrS (x : Option String) (d : String) : String :=
  match x with
  | some s => if s = "" then d else s
  | none => d

/-- Python `x or y` on optional strings (used for the `or`-chains of
`p.get(...) or p.get(...)`). -/
def pyOrO (x y : Option String) : Option String :=
  match x with
  | some s => if s = "" then y else some s
  | none => y

/-- Python truthiness of an optional string. -/
def pyTruthy (x : Option String) : Bool :=
  match x with
  | some s => !(s == "")
  | none => false

/-- `isPrefixL p l` holds when `p` is a prefix of `l`. -/
def isPrefixL : List Char → List Char → Bool
  | [], _ => true
  | _ :: _, [] => false
  | a :: as, b :: bs => a == b && isPrefixL as bs

/-- Python's substring test `p in l` (contiguous occurrence). -/
def isInfixL (p : List Char) : List Char → Bool
  | [] => isPrefixL p []
  | c :: rest => isPrefixL p (c :: rest) || isInfixL p rest

/-- Python `needle in hay` on strings. -/
def strContains (needle hay : String) : Bool :=
  isInfixL needle.data hay.data

/-! ## `parse_price` (import_grocery_csv.py lines 10-20)

The Python function searches the input for the regex
`\$\s*([0-9]+(?:\.[0-9]{1,2})?)` and returns `float` of the group.  The regex
is deterministic on every input: `\s*` can only end at a digit, `[0-9]+` must
take the whole digit run (a shorter take leaves a digit where `.`/end is
required), and `[0-9]{1,2}` greedily takes two digits when available.  The
matcher below implements exactly that leftmost match. -/

/-- The digits captured by the optional fraction `(?:\.[0-9]{1,2})?` at the
head of the list: a dot followed by one or two digits (two when two are
available); `[]` when the fraction is absent. -/
def fracDigits : List Char → List Char
  | p :: d1 :: rest =>
    if p == '.' && d1.isDigit then
      match rest with
      | d2 :: _ => if d2.isDigit then [d1, d2] else [d1]
      | [] => [d1]
    else []
  | _ => []

/-- Match of `\$\s*([0-9]+(?:\.[0-9]{1,2})?)` anchored at the head of the
list; returns the captured group split into integer digits and fraction
digits. -/
def matchPriceAt : List Char → Option (List Char × List Char)
  | '$' :: rest =>
    let r1 := rest.dropWhile pyIsSpace
    let ds := r1.takeWhile Char.isDigit
    if ds = [] then none
    else some (ds, fracDigits (r1.dropWhile Char.isDigit))
  | _ => none

/-- `re.search`: the leftmost position where the price pattern matches. -/
def searchPrice : List Char → Option (List Char × List Char)
  | [] => none
  | c :: rest =>
    match matchPriceAt (c :: rest) with
    | some v => some v
    | none => searchPrice rest

/-- Numeric value of a digit run, as a natural number. -/
def digitsNat (l : List Char) : ℕ :=
  l.foldl (fun a c => a * 10 + (c.toNat - 48)) 0

/-- `float(m.group(1))`: the numeric value of the matched digits and the
one-or-two-digit fraction. -/
def groupVal (p : List Char × List Char) : ℚ :=
  (digitsNat p.1 : ℚ) + (digitsNat p.2 : ℚ) / ((10 ^ p.2.length : ℕ) : ℚ)

/-- `parse_price` from `import_grocery_csv.py`: `None` on the empty string,
otherwise the value of the leftmost regex match on the stripped input. -/
def parse_price (s : String) : Option ℚ :=
  if s = "" then none
  else (searchPrice (pyStripL s.data)).map groupVal

/-! ## Importer data model (import_grocery_csv.py)

The SQLite database is modelled as explicit lists; a row id is the row's
index in its table's list (ids are assigned in insertion order and rows are
never deleted).  A CSV row is the dictionary produced by `csv.DictReader`,
with `none` for a missing column. -/

/-- A row of the `products` table.  The importer only ever fills
`canonical_name` and `size_text`; the image columns stay `NULL`. -/
structure Product where
  canonicalName : String
  sizeText : Option String
  imageUrl : Option String
  imageSource : Option String
  imageConfidence : Option ℚ
deriving DecidableEq, Repr, Inhabited

/-- A row of the `purchases` table (the columns the scripts read or write;
`currency` and `imported_at` take no part in any claim and are constant or
wall-clock respectively). -/
structure Purchase where
  storeId : ℕ
  productId : ℕ
  sourceFile : String
  rawProductName : String
  currentPrice : Option ℚ
  originalPrice : Option ℚ
  notes : Option String
  sizeText : Option String
deriving DecidableEq, Repr

/-- The database state. -/
structure Db where
  stores : List String
  products : List Product
  purchases : List Purchase
deriving DecidableEq, Repr

/-- An input row as produced by `csv.DictReader` (`none` = column absent). -/
structure CsvRow where
  producto : Option String
  tamano1 : Option String
  tamano2 : Option String
  precio : Option String
  precioActual : Option String
  notas : Option String
deriving DecidableEq, Repr

/-- Index of the first element satisfying `p` (`SELECT id … WHERE …` under
the id-as-index convention). -/
def lookupIdx (p : α → Bool) : List α → Option ℕ
  | [] => none
  | a :: l => if p a then some 0 else (lookupIdx p l).map (· + 1)

/-- `INSERT OR IGNORE INTO stores(name)` followed by `SELECT id`: returns the
updated table and the id of the (pre-existing or fresh) row. -/
def insertStore (db : Db) (name : String) : Db × ℕ :=
  match lookupIdx (fun s => s == name) db.stores with
  | some i => (db, i)
  | none => ({ db with stores := db.stores ++ [name] }, db.stores.length)

/-- `INSERT OR IGNORE INTO products(canonical_name, size_text)` followed by
`SELECT id`: on conflict the existing row (and its size) is kept. -/
def insertProduct (db : Db) (canonical : String) (size : Option String) : Db × ℕ :=
  match lookupIdx (fun p => p.canonicalName == canonical) db.products with
  | some i => (db, i)
  | none =>
    ({ db with products := db.products ++ [⟨canonical, size, none, none, none⟩] },
     db.products.length)

/-- The duplicate test of the importer's `SELECT 1 FROM purchases WHERE …`:
store, product, source file and raw name compare directly, prices through
`IFNULL(…, -1)` and size through `IFNULL(…, '')`. -/
def isDupRow (e : Purchase) (storeId productId : ℕ) (file raw : String)
    (cur orig : Option ℚ) (size : Option String) : Bool :=
  e.storeId == storeId && e.productId == productId &&
  e.sourceFile == file && e.rawProductName == raw &&
  e.currentPrice.getD (-1) == cur.getD (-1) &&
  e.originalPrice.getD (-1) == orig.getD (-1) &&
  e.sizeText.getD "" == size.getD ""

/-- `(r.get('Producto') or '').strip()`. -/
def rawNameOf (r : CsvRow) : String :=
  pyStrip (pyOrS r.producto "")

/-- `(r.get('Tamaño/Cantidad') or r.get('Tamaño / Cantidad') or '').strip() or None`. -/
def sizeTextOf (r : CsvRow) : Option String :=
  let s := pyStrip (pyOrS r.tamano1 (pyOrS r.tamano2 ""))
  if s = "" then none else some s

/-- `(r.get('Precio') or r.get('Precio Actual') or '').strip()`. -/
def priceColOf (r : CsvRow) : String :=
  pyStrip (pyOrS r.precio (pyOrS r.precioActual ""))

/-- `(r.get('Precio Original / Notas') or '').strip()`. -/
def notesColOf (r : CsvRow) : String :=
  pyStrip (pyOrS r.notas "")

/-- `any(x in price_col.lower() for x in ['est', '/lb', 'variable'])`. -/
def hasMarker (priceCol : String) : Bool :=
  strContains "est" (pyLower priceCol) || strContains "/lb" (pyLower priceCol) ||
  strContains "variable" (pyLower priceCol)

/-- Line 91 of the importer:
`notes = notes_col if notes_col else (price_col if any(…) else None)`. -/
def derivedNotes (priceCol notesCol : String) : Option String :=
  if notesCol ≠ "" then some notesCol
  else if hasMarker priceCol then some priceCol
  else none

/-- The purchase tuple a row inserts, given the resolved store and product
ids. -/
def purchaseOf (storeId productId : ℕ) (file : String) (r : CsvRow) : Purchase :=
  ⟨storeId, productId, file, rawNameOf r, parse_price (priceColOf r),
   parse_price (notesColOf r), derivedNotes (priceColOf r) (notesColOf r), sizeTextOf r⟩

/-- The duplicate test a row performs against a purchases table, given the
resolved store and product ids. -/
def dupExists (purchases : List Purchase) (storeId productId : ℕ) (file : String)
    (r : CsvRow) : Bool :=
  purchases.any (fun e => isDupRow e storeId productId file (rawNameOf r)
    (parse_price (priceColOf r)) (parse_price (notesColOf r)) (sizeTextOf r))

/-- One iteration of the importer's row loop: skip empty names, resolve the
product id, skip duplicates, otherwise insert the purchase. -/
def importRow (storeId : ℕ) (file : String) (db : Db) (r : CsvRow) : Db :=
  if rawNameOf r = "" then db
  else if dupExists (insertProduct db (rawNameOf r) (sizeTextOf r)).1.purchases storeId
      (insertProduct db (rawNameOf r) (sizeTextOf r)).2 file r then
    (insertProduct db (rawNameOf r) (sizeTextOf r)).1
  else
    { (insertProduct db (rawNameOf r) (sizeTextOf r)).1 with
        purchases := (insertProduct db (rawNameOf r) (sizeTextOf r)).1.purchases ++
          [purchaseOf storeId (insertProduct db (rawNameOf r) (sizeTextOf r)).2 file r] }

/-- `main` of `import_grocery_csv.py` on an already-open database: register
the store (lower-cased), then fold the row loop over the file. -/
def importCsv (db : Db) (storeName : String) (file : String) (rows : List CsvRow) : Db :=
  rows.foldl (importRow (insertStore db (pyLower storeName)).2 file)
    (insertStore db (pyLower storeName)).1

/-! ## Name normalization (enrich_product_images.py lines 24-32)

`normalize_name` applies a chain of `re.sub` passes.  Each pass is embedded
as a left-to-right scan that at every position either fires the (per-pass)
anchored matcher — replacing the matched span by a single space and resuming
after it — or copies one character.  The scan carries one bit of context,
whether the previous character of the original string is a regex word
character, which is all the `\b` boundary tests need.  The recursion is
driven by a fuel argument; a matcher always consumes at least one character,
so fuel `length + 1` (what the wrapper `applyScan` passes) never runs out. -/

/-- Regex word characters `\w` (ASCII model of Python's unicode `\w`). -/
def isWordChar (c : Char) : Bool :=
  c.isAlpha || c.isDigit || c == '_'

/-- A piece of one of the fixed alternatives in the unit / stoplist regexes:
a literal, or an inner `\s*`. -/
inductive Tok where
  | lit : List Char → Tok
  | ws : Tok
deriving DecidableEq, Repr

/-- Strip `p` from the head of `l`. -/
def dropPrefixL : List Char → List Char → Option (List Char)
  | [], l => some l
  | _ :: _, [] => none
  | p :: ps, c :: cs => if c == p then dropPrefixL ps cs else none

/-- Match a token sequence at the head of the list.  The greedy inner `\s*`
never needs to give characters back: in every alternative below it is
followed by a literal starting with a non-space character. -/
def matchToks : List Tok → List Char → Option (List Char)
  | [], l => some l
  | Tok.lit p :: ts, l => (dropPrefixL p l).bind (matchToks ts)
  | Tok.ws :: ts, l => matchToks ts (l.dropWhile pyIsSpace)

/-- `\b` at the position after a match: end of string or a non-word char. -/
def boundaryAfter (l : List Char) : Bool :=
  match l with
  | [] => true
  | c :: _ => !isWordChar c

/-- Try the regex alternatives in source order; an alternative that matches
but fails the trailing `\b` falls through to the next one, exactly as the
backtracking engine does. -/
def tryAlts (alts : List (List Tok)) (l : List Char) : Option (List Char) :=
  match alts with
  | [] => none
  | a :: rest =>
    match matchToks a l with
    | some rem => if boundaryAfter rem then some rem else tryAlts rest l
    | none => tryAlts rest l

/-- Anchored matcher for `\([^)]*\)`: a parenthesis opens a match only when a
closing one follows; `[^)]*` greedily stops exactly at the first `)`. -/
def parenM (_ : Bool) (l : List Char) : Option (List Char) :=
  match l with
  | '(' :: rest =>
    if rest.contains ')' then some ((rest.dropWhile (fun d => !(d == ')'))).drop 1)
    else none
  | _ => none

/-- Skip the optional `(?:[\.,]\d+)?` fraction at the head of the list (the
inner `\d+` takes the whole digit run: stopping early leaves a digit where
only a space or unit letter may follow). -/
def fracSkip : List Char → List Char
  | [] => []
  | p :: rest =>
    if (p == '.' || p == ',') && (match rest with | d :: _ => d.isDigit | [] => false) then
      rest.dropWhile Char.isDigit
    else p :: rest

/-- The unit alternatives of line 28, in source order:
`(oz|fl\s*oz|lb|ct|ea|each|g|kg|ml|l|gal|pt)`. -/
def unitAlts : List (List Tok) :=
  [[Tok.lit "oz".data], [Tok.lit "fl".data, Tok.ws, Tok.lit "oz".data],
   [Tok.lit "lb".data], [Tok.lit "ct".data], [Tok.lit "ea".data],
   [Tok.lit "each".data], [Tok.lit "g".data], [Tok.lit "kg".data],
   [Tok.lit "ml".data], [Tok.lit "l".data], [Tok.lit "gal".data],
   [Tok.lit "pt".data]]

/-- Anchored matcher for
`\b\d+(?:[\.,]\d+)?\s*(oz|fl\s*oz|lb|ct|ea|each|g|kg|ml|l|gal|pt)\b`.
`\d+` takes the whole digit run (the leading `\b` pins the start, and any
shorter take leaves a digit where `[\.,]`, `\s` or a unit letter is
required), so the only branching left is the alternation, handled by
`tryAlts`. -/
def unitM (prevW : Bool) (l : List Char) : Option (List Char) :=
  match l with
  | c :: rest =>
    if prevW || !c.isDigit then none
    else tryAlts unitAlts ((fracSkip (rest.dropWhile Char.isDigit)).dropWhile pyIsSpace)
  | [] => none

/-- The stoplist alternatives of line 29, in source order. -/
def stopAlts : List (List Tok) :=
  [[Tok.lit "organic".data], [Tok.lit "fresh".data],
   [Tok.lit "family".data, Tok.ws, Tok.lit "size".data],
   [Tok.lit "large".data], [Tok.lit "small".data], [Tok.lit "mini".data],
   [Tok.lit "original".data], [Tok.lit "single".data],
   [Tok.lit "individual".data], [Tok.lit "bag".data], [Tok.lit "pack".data],
   [Tok.lit "vp".data], [Tok.lit "no".data, Tok.ws, Tok.lit "salt".data]]

/-- Anchored matcher for the stoplist regex
`\b(organic|fresh|family\s*size|…|no\s*salt)\b`: every alternative starts
with a letter, so the leading `\b` just requires a non-word previous
character. -/
def stopM (prevW : Bool) (l : List Char) : Option (List Char) :=
  if prevW then none else tryAlts stopAlts l

/-- Anchored matcher for `\s+` (the whitespace-collapsing pass): a
whitespace head matches the whole whitespace run. -/
def wsM (_ : Bool) (l : List Char) : Option (List Char) :=
  match l with
  | c :: rest => if pyIsSpace c then some (rest.dropWhile pyIsSpace) else none
  | [] => none

/-- One `re.sub(pattern, " ", s)` pass: scan left to right, replacing each
leftmost match by a single space and resuming right after it (the word-char
bit of the last consumed character of every matcher above is `true` for
`unitM`/`stopM`; for `parenM`/`wsM` the boundary bit is unread, so passing
`true` is harmless). -/
def scanRepl (m : Bool → List Char → Option (List Char)) :
    ℕ → Bool → List Char → List Char
  | 0, _, l => l
  | _ + 1, _, [] => []
  | fuel + 1, pw, c :: rest =>
    match m pw (c :: rest) with
    | some rem => ' ' :: scanRepl m fuel true rem
    | none => c :: scanRepl m fuel (isWordChar c) rest

/-- Run one substitution pass over a whole string (at the start of the
string there is no previous character, hence `prevW = false`). -/
def applyScan (m : Bool → List Char → Option (List Char)) (l : List Char) : List Char :=
  scanRepl m (l.length + 1) false l

/-- `normalize_name` from `enrich_product_images.py`: lower-case, drop
trademark glyphs, normalize the apostrophe, remove parentheticals, remove
quantity-plus-unit tokens, remove the marketing stoplist, blank remaining
characters outside `[a-z0-9\s\-']`, collapse whitespace and strip. -/
def normalize_name (name : String) : String :=
  let s1 := name.data.map Char.toLower
  let s2 := s1.map (fun c =>
    if c == '®' then ' ' else if c == '™' then ' ' else if c == '’' then '\'' else c)
  let s3 := applyScan parenM s2
  let s4 := applyScan unitM s3
  let s5 := applyScan stopM s4
  let s6 := s5.map (fun c =>
    if ('a' ≤ c ∧ c ≤ 'z') ∨ ('0' ≤ c ∧ c ≤ '9') ∨ pyIsSpace c = true ∨ c = '-' ∨ c = '\''
    then c else ' ')
  let s7 := applyScan wsM s6
  String.mk (pyStripL s7)

/-! ## Image resolver model (enrich_product_images.py)

The external catalogs are modelled as oracles mapping the query string to an
optional response; `none` is a request that raised (the `except Exception`
paths), `some` is a decoded JSON body reduced to the fields the script
reads.  `difflib.SequenceMatcher.ratio` is an external-library dependency of
the script, so the similarity function is likewise a parameter `sim`. -/

/-- A best-match candidate `(image-or-thumb url, matched name, score)` as
held in the `best` variable of the three search functions. -/
structure Cand where
  url : String
  name : String
  score : ℚ
deriving DecidableEq, Repr

/-- An entry of OpenFoodFacts' `products` array (the fields read). -/
structure OffEntry where
  product_name : Option String
  image_front_small_url : Option String
  image_front_url : Option String
  image_url : Option String
deriving DecidableEq, Repr

/-- An entry of Openverse's `results` array (the fields read). -/
structure OvEntry where
  title : Option String
  url : Option String
deriving DecidableEq, Repr

/-- A page of the Wikipedia generator-search response: the `title` field
(queried with default `""`) and `thumbnail.source` collapsed to one optional
string (absent or falsy at any level gives `none`). -/
structure WikiPage where
  title : Option String
  thumbnail_source : Option String
deriving DecidableEq, Repr

/-- Python `str.split()` (split on whitespace runs, no empty parts). -/
def pySplitAux : List Char → List Char → List (List Char)
  | [], acc => if acc = [] then [] else [acc.reverse]
  | c :: rest, acc =>
    if pyIsSpace c then
      if acc = [] then pySplitAux rest [] else acc.reverse :: pySplitAux rest []
    else pySplitAux rest (c :: acc)

/-- Python `s.split()`. -/
def pySplit (s : String) : List String :=
  (pySplitAux s.data []).map String.mk

/-- The query variants built identically at the top of `search_openfoodfacts`
and `search_openverse`: the raw name; the normalized name when non-empty and
different; the first four tokens of the normalized name when it has more
than four. -/
def searchVariants (product_name : String) : List String :=
  let n := normalize_name product_name
  let tokens := pySplit n
  ([product_name] ++ (if n ≠ "" ∧ n ≠ product_name then [n] else [])) ++
    (if tokens.length > 4 then [String.intercalate " " (tokens.take 4)] else [])

/-- The candidate score used by catalogs A and B: the larger of the raw and
the normalized similarity. -/
def candScore (sim : String → String → ℚ) (product_name name : String) : ℚ :=
  max (sim product_name name) (sim (normalize_name product_name) (normalize_name name))

/-- The body of `search_openfoodfacts`'s inner loop over one response. -/
def offScan (sim : String → String → ℚ) (product_name : String)
    (st : Option Cand × ℚ) (entries : List OffEntry) : Option Cand × ℚ :=
  entries.foldl (fun st e =>
    let nm := pyStrip (pyOrS e.product_name "")
    if nm = "" then st
    else
      let score := candScore sim product_name nm
      let img := pyOrO e.image_front_small_url (pyOrO e.image_front_url e.image_url)
      if pyTruthy img ∧ st.2 < score then (some ⟨img.getD "", nm, score⟩, score) else st) st

/-- `search_openfoodfacts`: fold the per-variant queries, skipping a variant
whose request raises, and return the best-scoring candidate with a truthy
image field (`None` when no candidate beat the initial score `0.0`). -/
def search_openfoodfacts (sim : String → String → ℚ)
    (oracle : String → Option (List OffEntry)) (product_name : String) : Option Cand :=
  ((searchVariants product_name).foldl (fun st v =>
    match oracle v with
    | none => st
    | some entries => offScan sim product_name st entries) (none, 0)).1

/-- The body of `search_openverse`'s inner loop over one response. -/
def ovScan (sim : String → String → ℚ) (product_name : String)
    (st : Option Cand × ℚ) (entries : List OvEntry) : Option Cand × ℚ :=
  entries.foldl (fun st e =>
    let title := pyStrip (pyOrS e.title "")
    if title = "" ∨ ¬ pyTruthy e.url then st
    else
      let score := candScore sim product_name title
      if st.2 < score then (some ⟨e.url.getD "", title, score⟩, score) else st) st

/-- `search_openverse`: same variant scheme and scoring as catalog A. -/
def search_openverse (sim : String → String → ℚ)
    (oracle : String → Option (List OvEntry)) (product_name : String) : Option Cand :=
  ((searchVariants product_name).foldl (fun st v =>
    match oracle v with
    | none => st
    | some entries => ovScan sim product_name st entries) (none, 0)).1

/-- `search_wikipedia`: a single query for the raw name; `None` on a raised
request; pages without a thumbnail are skipped; the score is the plain
similarity of raw name and page title. -/
def search_wikipedia (sim : String → String → ℚ)
    (oracle : String → Option (List WikiPage)) (product_name : String) : Option Cand :=
  match oracle product_name with
  | none => none
  | some pages =>
    (pages.foldl (fun st p =>
      let title := p.title.getD ""
      if ¬ pyTruthy p.thumbnail_source then st
      else
        let score := sim product_name title
        if st.2 < score then (some ⟨p.thumbnail_source.getD "", title, score⟩, score) else st)
      ((none : Option Cand), (0 : ℚ))).1

/-- `GENERIC_KEYWORD_IMAGES`, in source (insertion) order. -/
def GENERIC_KEYWORD_IMAGES : List (String × String) :=
  [("banana", "https://upload.wikimedia.org/wikipedia/commons/8/8a/Banana-Single.jpg"),
   ("apple", "https://upload.wikimedia.org/wikipedia/commons/1/15/Red_Apple.jpg"),
   ("tomato", "https://upload.wikimedia.org/wikipedia/commons/8/89/Tomato_je.jpg"),
   ("onion", "https://upload.wikimedia.org/wikipedia/commons/2/25/Onion_on_White.JPG"),
   ("potato", "https://upload.wikimedia.org/wikipedia/commons/6/60/Patates.jpg"),
   ("cucumber", "https://upload.wikimedia.org/wikipedia/commons/9/96/ARS_cucumber.jpg"),
   ("bell pepper", "https://upload.wikimedia.org/wikipedia/commons/8/85/Assorted_peppers.jpg"),
   ("pepper", "https://upload.wikimedia.org/wikipedia/commons/8/85/Assorted_peppers.jpg"),
   ("strawberry", "https://upload.wikimedia.org/wikipedia/commons/2/29/PerfectStrawberry.jpg"),
   ("blueberries", "https://upload.wikimedia.org/wikipedia/commons/1/13/Blueberries.jpg"),
   ("blueberry", "https://upload.wikimedia.org/wikipedia/commons/1/13/Blueberries.jpg"),
   ("avocado", "https://upload.wikimedia.org/wikipedia/commons/c/c9/Avocado_Hass_-_single_and_halved.jpg"),
   ("lemon", "https://upload.wikimedia.org/wikipedia/commons/c/c6/Lemon-Whole-Split.jpg"),
   ("orange", "https://upload.wikimedia.org/wikipedia/commons/c/c4/Orange-Fruit-Pieces.jpg"),
   ("cilantro", "https://upload.wikimedia.org/wikipedia/commons/2/2f/Coriandrum_sativum_-_K%C3%B6hler%E2%80%93s_Medizinal-Pflanzen-193.jpg"),
   ("parsley", "https://upload.wikimedia.org/wikipedia/commons/0/0f/Petroselinum_crispum2.jpg"),
   ("carrot", "https://upload.wikimedia.org/wikipedia/commons/7/70/Carrot_on_White.JPG"),
   ("eggplant", "https://upload.wikimedia.org/wikipedia/commons/f/fb/Aubergine.jpg"),
   ("squash", "https://upload.wikimedia.org/wikipedia/commons/5/59/Cucurbita_moschata_Butternut_20051011_203.jpg"),
   ("chayote", "https://upload.wikimedia.org/wikipedia/commons/f/f1/Chayote_BNC.jpg"),
   ("grapes", "https://upload.wikimedia.org/wikipedia/commons/b/bb/Table_grapes_on_white.jpg"),
   ("mango", "https://upload.wikimedia.org/wikipedia/commons/9/90/Hapus_Mango.jpg"),
   ("corn", "https://upload.wikimedia.org/wikipedia/commons/7/72/Maize_stalk.jpg"),
   ("milk", "https://upload.wikimedia.org/wikipedia/commons/a/a4/Milk_glass.jpg"),
   ("bread", "https://upload.wikimedia.org/wikipedia/commons/d/d1/Loaf_of_bread.jpg"),
   ("cheese", "https://upload.wikimedia.org/wikipedia/commons/4/44/Cheese_platter.jpg"),
   ("yogurt", "https://upload.wikimedia.org/wikipedia/commons/3/37/Yogurt.jpg"),
   ("butter", "https://upload.wikimedia.org/wikipedia/commons/0/0e/Butter_on_spoon.jpg"),
   ("rice", "https://upload.wikimedia.org/wikipedia/commons/6/6f/Rice_grains_%28IRRI%29.jpg"),
   ("pasta", "https://upload.wikimedia.org/wikipedia/commons/4/4f/Fusilli_pasta.jpg"),
   ("tortilla", "https://upload.wikimedia.org/wikipedia/commons/2/2c/Flour_tortillas.jpg"),
   ("beans", "https://upload.wikimedia.org/wikipedia/commons/5/5f/Black_beans.jpg"),
   ("shrimp", "https://upload.wikimedia.org/wikipedia/commons/8/82/Shrimps.jpg"),
   ("tuna", "https://upload.wikimedia.org/wikipedia/commons/d/d7/Thunnus_albacares.jpg"),
   ("chicken", "https://upload.wikimedia.org/wikipedia/commons/3/32/Chicken_breast.png"),
   ("beef", "https://upload.wikimedia.org/wikipedia/commons/9/91/Raw_beef.png"),
   ("pork", "https://upload.wikimedia.org/wikipedia/commons/0/01/Pork_meat.jpg"),
   ("honey", "https://upload.wikimedia.org/wikipedia/commons/5/52/Honey_%28food%29.jpg"),
   ("vinegar", "https://upload.wikimedia.org/wikipedia/commons/0/06/White_vinegar.jpg"),
   ("kombucha", "https://upload.wikimedia.org/wikipedia/commons/3/3e/Kombucha_Mature.jpg"),
   ("salt", "https://upload.wikimedia.org/wikipedia/commons/5/5d/Salt_shaker_on_white_background.jpg"),
   ("sugar", "https://upload.wikimedia.org/wikipedia/commons/7/70/Sugar_cubes.jpg")]

/-- `generic_fallback_image`: the first table keyword occurring as a
substring of the normalized name, as `(url, keyword, 0.35)`. -/
def generic_fallback_image (product_name : String) : Option (String × String × ℚ) :=
  (GENERIC_KEYWORD_IMAGES.find? (fun kv => strContains kv.1 (normalize_name product_name))).map
    (fun kv => (kv.2, kv.1, (35 : ℚ)/100))

/-! ## Rounding and confidence formulas

Python's `round(x, 3)` is round-half-to-even on the third decimal (the
binary-float representation error of the inputs is below the model's
resolution and is not modelled). -/

/-- Round-half-to-even to an integer. -/
def roundHalfEven (x : ℚ) : ℤ :=
  if x - ⌊x⌋ < 1/2 then ⌊x⌋
  else if 1/2 < x - ⌊x⌋ then ⌊x⌋ + 1
  else if ⌊x⌋ % 2 = 0 then ⌊x⌋ else ⌊x⌋ + 1

/-- Python `round(x, 3)`. -/
def round3 (x : ℚ) : ℚ :=
  (roundHalfEven (x * 1000) : ℚ) / 1000

/-- Catalog A confidence: `round(min(0.95, 0.55 + score * 0.4), 3)`. -/
def confOFF (score : ℚ) : ℚ :=
  round3 (min (95/100) (55/100 + score * (4/10)))

/-- Catalog B confidence: `round(min(0.82, 0.38 + score * 0.35), 3)`. -/
def confOV (score : ℚ) : ℚ :=
  round3 (min (82/100) (38/100 + score * (35/100)))

/-- Catalog C confidence: `round(min(0.85, 0.45 + score * 0.35), 3)`. -/
def confWiki (score : ℚ) : ℚ :=
  round3 (min (85/100) (45/100 + score * (35/100)))

/-- `hit and hit[2] >= t`: the acceptance test applied to each search
result. -/
def clears (o : Option Cand) (t : ℚ) : Bool :=
  match o with
  | some h => t ≤ h.score
  | none => false

/-- The tail of the decision chain from the Wikipedia test on (lines
228-237): accept catalog C at `0.45`, else the static fallback. -/
def resolveFromC (c : Option Cand) (product_name : String) :
    Option (String × String × ℚ) :=
  match c with
  | some h =>
    if 45/100 ≤ h.score then some (h.url, "wikipedia", confWiki h.score)
    else (generic_fallback_image product_name).map (fun r => (r.1, "generic", r.2.2))
  | none => (generic_fallback_image product_name).map (fun r => (r.1, "generic", r.2.2))

/-- The tail of the decision chain from the Openverse test on (lines
222-237): accept catalog B at `0.33`, else fall through. -/
def resolveFromB (b c : Option Cand) (product_name : String) :
    Option (String × String × ℚ) :=
  match b with
  | some h =>
    if 33/100 ≤ h.score then some (h.url, "openverse", confOV h.score)
    else resolveFromC c product_name
  | none => resolveFromC c product_name

/-- The per-product decision chain of `main` (lines 211-237), taking the
three search results as inputs: accept catalog A at `0.42`, else B at
`0.33`, else C at `0.45`, else the static fallback; the result is the
`(url, source, confidence)` written back, or `none` (the product is
skipped). -/
def resolveProduct (a b c : Option Cand) (product_name : String) :
    Option (String × String × ℚ) :=
  match a with
  | some h =>
    if 42/100 ≤ h.score then some (h.url, "openfoodfacts", confOFF h.score)
    else resolveFromB b c product_name
  | none => resolveFromB b c product_name

/-- The row-selection predicate of the resolver's query:
`WHERE image_url IS NULL OR image_url=''`. -/
def missingImage (p : Product) : Bool :=
  p.imageUrl == none || p.imageUrl == some ""

/-- The guarded `UPDATE products SET image_url=?, image_source=?,
image_confidence=? WHERE id=?` of lines 239-243: applied only when both
`source` and `url` are truthy. -/
def applyResolution (p : Product) (r : Option (String × String × ℚ)) : Product :=
  match r with
  | some (url, src, conf) =>
    if src ≠ "" ∧ url ≠ "" then
      { p with imageUrl := some url, imageSource := some src, imageConfidence := some conf }
    else p
  | none => p

/-- One run of the resolver's `main` over the products table: the missing
rows are selected up front (in id order, optionally truncated by `--limit`,
where `0` means all), then each selected row is resolved from the three
catalog lookups (bundled per product name in `lookups`) and the fallback
table, and updated in place. -/
def resolverPass (lookups : String → Option Cand × Option Cand × Option Cand)
    (limit : ℕ) (ps : List Product) : List Product :=
  let missingIds := (List.range ps.length).filter (fun i => missingImage (ps.getD i default))
  let sel := if limit = 0 then missingIds else missingIds.take limit
  (List.range ps.length).map (fun i =>
    let p := ps.getD i default
    if sel.contains i then
      applyResolution p
        (resolveProduct (lookups p.canonicalName).1 (lookups p.canonicalName).2.1
          (lookups p.canonicalName).2.2 p.canonicalName)
    else p)

/-! ## Claim-side definitions for the price-parsing claim

The claim describes the pattern as "`$` followed by digits and an optional
one-or-two-digit decimal fraction" — without the `\s*` the code's regex has
between `$` and the digits.  The matcher below follows the claim's words
(digits immediately after the `$`). -/

/-- Modelled from the claim's words: a `$` followed immediately by digits
and an optional one-or-two-digit decimal fraction, anchored at the head. -/
def claimPriceAt : List Char → Option (List Char × List Char)
  | '$' :: rest =>
    let ds := rest.takeWhile Char.isDigit
    if ds = [] then none
    else some (ds, fracDigits (rest.dropWhile Char.isDigit))
  | _ => none

/-- Modelled from the claim's words: the first occurrence of the claim's
pattern anywhere in the input. -/
def claimPriceSearch : List Char → Option (List Char × List Char)
  | [] => none
  | c :: rest =>
    match claimPriceAt (c :: rest) with
    | some v => some v
    | none => claimPriceSearch rest

/-- A row all of whose effects are already present in the database: either
the row is name-less (skipped), or its product resolves to an id `i` and a
matching purchase already exists.  Processing such a row is a no-op. -/
def rowCovered (sid : ℕ) (f : String) (db : Db) (r : CsvRow) : Prop :=
  rawNameOf r = "" ∨
  ∃ i, lookupIdx (fun p => p.canonicalName == rawNameOf r) db.products = some i ∧
    dupExists db.purchases sid i f r = true

/-- Modelled from the claim's words for the notes rule: "if the secondary
column yields no parseable price, its raw text is kept as the note;
otherwise, if the primary price field contains an estimation/variable-price
marker, the primary field's raw text becomes the note; otherwise the note is
null". -/
def claimNotes (priceCol notesCol : String) : Option String :=
  if parse_price notesCol = none then some notesCol
  else if hasMarker priceCol then some priceCol
  else none

example : searchPrice "$3.99".data = some (['3'], ['9', '9']) := by decide
example : parse_price "$3.99" = some (399/100) := by
  have h : searchPrice (pyStripL "$3.99".data) = some (['3'], ['9', '9']) := by decide
  have h1 : digitsNat ['3'] = 3 := by decide
  have h2 : digitsNat ['9', '9'] = 99 := by decide
  rw [parse_price, if_neg (by decide), h]
  simp [groupVal, h1, h2]
  norm_num
example : parse_price "" = none := by decide
example : parse_price "no price" = none := by decide
example : searchPrice (pyStripL "$ 3.99".data) = some (['3'], ['9', '9']) := by decide
example : searchPrice (pyStripL "about $2.49/lb".data) = some (['2'], ['4', '9']) := by decide
example : searchPrice (pyStripL "$3.999".data) = some (['3'], ['9', '9']) := by decide
example : searchPrice (pyStripL "$07".data) = some (['0', '7'], []) := by decide

example : normalize_name "Organic Bananas (Family Size) 2 lb" = "bananas" := by decide
example : normalize_name "Cheerios® 18 oz" = "cheerios" := by decide
example : normalize_name "Ben & Jerry's 16 fl oz" = "ben jerry's" := by decide
example : normalize_name "No Salt Added Corn" = "added corn" := by decide
example : normalize_name "2% Milk 1 gal" = "2 milk" := by decide

example : normalize_name "12.5 oz pack" = "" := by decide
example : normalize_name "abc(def" = "abc def" := by decide
example : normalize_name "a(b)c(d" = "a c d" := by decide
example : normalize_name "salt 2.5.5lb" = "salt 2" := by decide
example : normalize_name "x 22oz y" = "x y" := by decide
example : normalize_name "2 oz3" = "2 oz3" := by decide
example : normalize_name "a_organic b" = "a organic b" := by decide
example : normalize_name "mini-bag" = "-" := by decide
example : normalize_name "1,5 l Wasser" = "wasser" := by decide
example : searchPrice (pyStripL "$x $3".data) = some (['3'], []) := by decide
example : searchPrice (pyStripL "$3.".data) = some (['3'], []) := by decide
example : searchPrice (pyStripL "$3.9".data) = some (['3'], ['9']) := by decide
example : searchPrice (pyStripL "$5,99".data) = some (['5'], []) := by decide
example : searchPrice (pyStripL "US$4.50".data) = some (['4'], ['5', '0']) := by decide
example : searchPrice (pyStripL "$ ".data) = none := by decide
example : searchPrice (pyStripL "5.99".data) = none := by decide

/-! ## Properties of round-half-even -/

theorem roundHalfEven_ge_floor (x : ℚ) : ⌊x⌋ ≤ roundHalfEven x := by
  unfold roundHalfEven
  split_ifs <;> omega

theorem roundHalfEven_le_floor_add_one (x : ℚ) : roundHalfEven x ≤ ⌊x⌋ + 1 := by
  unfold roundHalfEven
  split_ifs <;> omega

theorem roundHalfEven_mono {x y : ℚ} (h : x ≤ y) : roundHalfEven x ≤ roundHalfEven y := by
  rcases eq_or_lt_of_le (Int.floor_mono h) with heq | hlt
  · have hr : x - (⌊x⌋ : ℚ) ≤ y - (⌊y⌋ : ℚ) := by
      rw [← heq]
      linarith
    unfold roundHalfEven
    rw [← heq]
    split_ifs <;> first | omega | linarith
  · calc roundHalfEven x ≤ ⌊x⌋ + 1 := roundHalfEven_le_floor_add_one x
    _ ≤ ⌊y⌋ := by omega
    _ ≤ roundHalfEven y := roundHalfEven_ge_floor y

theorem roundHalfEven_intCast (n : ℤ) : roundHalfEven (n : ℚ) = n := by
  unfold roundHalfEven
  rw [Int.floor_intCast]
  norm_num

theorem round3_mono {x y : ℚ} (h : x ≤ y) : round3 x ≤ round3 y := by
  unfold round3
  have : roundHalfEven (x * 1000) ≤ roundHalfEven (y * 1000) :=
    roundHalfEven_mono (by linarith)
  have : (roundHalfEven (x * 1000) : ℚ) ≤ (roundHalfEven (y * 1000) : ℚ) := by
    exact_mod_cast this
  linarith

theorem round3_of_mul_eq_int {x : ℚ} {n : ℤ} (h : x * 1000 = (n : ℚ)) : round3 x = x := by
  unfold round3
  rw [h, roundHalfEven_intCast]
  rw [← h]
  ring

/-! ## Bounds on the confidence formulas -/

theorem confOFF_mono {s t : ℚ} (h : s ≤ t) : confOFF s ≤ confOFF t :=
  round3_mono (min_le_min le_rfl (by linarith))

theorem confOV_mono {s t : ℚ} (h : s ≤ t) : confOV s ≤ confOV t :=
  round3_mono (min_le_min le_rfl (by linarith))

theorem confWiki_mono {s t : ℚ} (h : s ≤ t) : confWiki s ≤ confWiki t :=
  round3_mono (min_le_min le_rfl (by linarith))

theorem confOFF_le_cap (s : ℚ) : confOFF s ≤ 95/100 := by
  have h : round3 (min (95/100) (55/100 + s * (4/10))) ≤ round3 (95/100) :=
    round3_mono (min_le_left _ _)
  have h950 : round3 ((95 : ℚ)/100) = 95/100 :=
    round3_of_mul_eq_int (n := 950) (by norm_num)
  calc confOFF s ≤ round3 (95/100) := h
  _ = 95/100 := h950

theorem confOV_le_cap (s : ℚ) : confOV s ≤ 82/100 := by
  have h : round3 (min (82/100) (38/100 + s * (35/100))) ≤ round3 (82/100) :=
    round3_mono (min_le_left _ _)
  have h820 : round3 ((82 : ℚ)/100) = 82/100 :=
    round3_of_mul_eq_int (n := 820) (by norm_num)
  calc confOV s ≤ round3 (82/100) := h
  _ = 82/100 := h820

theorem confWiki_le_cap (s : ℚ) : confWiki s ≤ 85/100 := by
  have h : round3 (min (85/100) (45/100 + s * (35/100))) ≤ round3 (85/100) :=
    round3_mono (min_le_left _ _)
  have h850 : round3 ((85 : ℚ)/100) = 85/100 :=
    round3_of_mul_eq_int (n := 850) (by norm_num)
  calc confWiki s ≤ round3 (85/100) := h
  _ = 85/100 := h850

theorem confOFF_lb {s : ℚ} (h : 0 ≤ s) : 55/100 ≤ confOFF s := by
  have h550 : round3 ((55 : ℚ)/100) = 55/100 :=
    round3_of_mul_eq_int (n := 550) (by norm_num)
  have hm : (55 : ℚ)/100 ≤ min (95/100) (55/100 + s * (4/10)) :=
    le_min (by norm_num) (by linarith)
  calc (55 : ℚ)/100 = round3 (55/100) := h550.symm
  _ ≤ confOFF s := round3_mono hm

theorem confOV_lb {s : ℚ} (h : 0 ≤ s) : 38/100 ≤ confOV s := by
  have h380 : round3 ((38 : ℚ)/100) = 38/100 :=
    round3_of_mul_eq_int (n := 380) (by norm_num)
  have hm : (38 : ℚ)/100 ≤ min (82/100) (38/100 + s * (35/100)) :=
    le_min (by norm_num) (by linarith)
  calc (38 : ℚ)/100 = round3 (38/100) := h380.symm
  _ ≤ confOV s := round3_mono hm

theorem confWiki_lb {s : ℚ} (h : 0 ≤ s) : 45/100 ≤ confWiki s := by
  have h450 : round3 ((45 : ℚ)/100) = 45/100 :=
    round3_of_mul_eq_int (n := 450) (by norm_num)
  have hm : (45 : ℚ)/100 ≤ min (85/100) (45/100 + s * (35/100)) :=
    le_min (by norm_num) (by linarith)
  calc (45 : ℚ)/100 = round3 (45/100) := h450.symm
  _ ≤ confWiki s := round3_mono hm

/-! ## Whitespace facts and strip-invariance of the price search -/

theorem pyIsSpace_cases {c : Char} (h : pyIsSpace c = true) :
    c = ' ' ∨ c = '\t' ∨ c = '\n' ∨ c = '\r' ∨ c = '\x0b' ∨ c = '\x0c' := by
  simp only [pyIsSpace, Bool.or_eq_true, beq_iff_eq] at h
  tauto

theorem pyIsSpace_ne_dollar {c : Char} (h : pyIsSpace c = true) : ¬ c = '$' := by
  rcases pyIsSpace_cases h with rfl | rfl | rfl | rfl | rfl | rfl <;> decide

theorem pyIsSpace_not_digit {c : Char} (h : pyIsSpace c = true) : c.isDigit = false := by
  rcases pyIsSpace_cases h with rfl | rfl | rfl | rfl | rfl | rfl <;> decide

theorem pyIsSpace_ne_dot {c : Char} (h : pyIsSpace c = true) : ¬ c = '.' := by
  rcases pyIsSpace_cases h with rfl | rfl | rfl | rfl | rfl | rfl <;> decide

theorem matchPriceAt_not_dollar {c : Char} {rest : List Char} (h : ¬ c = '$') :
    matchPriceAt (c :: rest) = none := by
  unfold matchPriceAt
  split
  · next heq =>
    exact absurd (List.cons.injEq .. ▸ congrArg id heq) (by simp [h])
  · rfl

theorem searchPrice_cons (c : Char) (rest : List Char) :
    searchPrice (c :: rest) =
      match matchPriceAt (c :: rest) with
      | some v => some v
      | none => searchPrice rest := rfl

theorem searchPrice_dropWhile_ws (l : List Char) :
    searchPrice (l.dropWhile pyIsSpace) = searchPrice l := by
  induction l with
  | nil => rfl
  | cons c rest ih =>
    by_cases hc : pyIsSpace c = true
    · rw [List.dropWhile_cons_of_pos hc, ih, searchPrice_cons,
        matchPriceAt_not_dollar (pyIsSpace_ne_dollar hc)]
    · rw [List.dropWhile_cons_of_neg hc]

theorem searchPrice_all_ws {ws : List Char} (hws : ∀ c ∈ ws, pyIsSpace c = true) :
    searchPrice ws = none := by
  induction ws with
  | nil => rfl
  | cons c rest ih =>
    rw [searchPrice_cons, matchPriceAt_not_dollar (pyIsSpace_ne_dollar (hws c (by simp)))]
    exact ih (fun d hd => hws d (by simp [hd]))

theorem takeWhile_digit_ws {ws : List Char} (hws : ∀ c ∈ ws, pyIsSpace c = true) :
    ws.takeWhile Char.isDigit = [] := by
  cases ws with
  | nil => rfl
  | cons c rest =>
    rw [List.takeWhile_cons, pyIsSpace_not_digit (hws c (by simp))]
    simp

theorem dropWhile_digit_ws {ws : List Char} (hws : ∀ c ∈ ws, pyIsSpace c = true) :
    ws.dropWhile Char.isDigit = ws := by
  cases ws with
  | nil => rfl
  | cons c rest =>
    rw [List.dropWhile_cons, pyIsSpace_not_digit (hws c (by simp))]
    simp

theorem fracDigits_append_ws {ws : List Char} (hws : ∀ c ∈ ws, pyIsSpace c = true) :
    ∀ xs : List Char, fracDigits (xs ++ ws) = fracDigits xs := by
  intro xs
  match xs with
  | [] =>
    simp only [List.nil_append]
    match ws, hws with
    | [], _ => rfl
    | c :: rest, hws =>
      cases rest with
      | nil => simp [fracDigits]
      | cons d1 rest' =>
        have : ¬ c = '.' := pyIsSpace_ne_dot (hws c (by simp))
        simp [fracDigits, this]
  | [p] =>
    match ws, hws with
    | [], _ => simp
    | c :: rest, hws =>
      have hnd : c.isDigit = false := pyIsSpace_not_digit (hws c (by simp))
      simp [fracDigits, hnd]
  | p :: d1 :: xs' =>
    simp only [List.cons_append]
    by_cases hp : (p == '.' && d1.isDigit) = true
    · simp only [fracDigits, hp, if_pos]
      cases xs' with
      | nil =>
        simp only [List.nil_append]
        match ws, hws with
        | [], _ => rfl
        | c :: rest, hws =>
          have hnd : c.isDigit = false := pyIsSpace_not_digit (hws c (by simp))
          simp [hnd]
      | cons d2 xs'' => simp
    · simp [fracDigits, hp]

theorem dropWhile_ws_all {ws : List Char} (hws : ∀ c ∈ ws, pyIsSpace c = true) :
    ws.dropWhile pyIsSpace = [] := by
  induction ws with
  | nil => rfl
  | cons c rest ih =>
    rw [List.dropWhile_cons_of_pos (hws c (by simp))]
    exact ih (fun d hd => hws d (by simp [hd]))

theorem matchPriceAt_append_ws {ws : List Char} (hws : ∀ c ∈ ws, pyIsSpace c = true) :
    ∀ xs : List Char, matchPriceAt (xs ++ ws) = matchPriceAt xs := by
  intro xs
  cases xs with
  | nil =>
    simp only [List.nil_append]
    cases ws with
    | nil => rfl
    | cons w rest => exact matchPriceAt_not_dollar (pyIsSpace_ne_dollar (hws w (by simp)))
  | cons c rest =>
    by_cases hc : c = '$'
    · subst hc
      simp only [List.cons_append, matchPriceAt]
      rw [List.dropWhile_append]
      by_cases hemp : (List.dropWhile pyIsSpace rest).isEmpty = true
      · rw [if_pos hemp, dropWhile_ws_all hws]
        rw [List.isEmpty_iff] at hemp
        rw [hemp]
      · rw [if_neg hemp, List.takeWhile_append]
        by_cases hall : (List.takeWhile Char.isDigit (List.dropWhile pyIsSpace rest)).length
            = (List.dropWhile pyIsSpace rest).length
        · rw [if_pos hall, takeWhile_digit_ws hws, List.append_nil]
          have hr1 : List.takeWhile Char.isDigit (List.dropWhile pyIsSpace rest)
              = List.dropWhile pyIsSpace rest :=
            (List.takeWhile_prefix _).eq_of_length hall
          have hdw : List.dropWhile Char.isDigit (List.dropWhile pyIsSpace rest) = [] := by
            have h' := List.takeWhile_append_dropWhile Char.isDigit (List.dropWhile pyIsSpace rest)
            rw [hr1] at h'
            exact List.append_right_eq_self.mp h'
          rw [List.dropWhile_append, hdw]
          simp only [List.isEmpty_nil, if_pos]
          rw [dropWhile_digit_ws hws, hr1]
          have hfr : fracDigits ([] ++ ws) = fracDigits [] := fracDigits_append_ws hws []
          simp only [List.nil_append] at hfr
          rw [hfr]
        · rw [if_neg hall]
          by_cases hds : List.takeWhile Char.isDigit (List.dropWhile pyIsSpace rest) = []
          · rw [hds]
            simp
          · rw [if_neg hds, if_neg hds, List.dropWhile_append]
            have hne : ¬ (List.dropWhile Char.isDigit (List.dropWhile pyIsSpace rest)).isEmpty = true := by
              intro habs
              rw [List.isEmpty_iff] at habs
              have h' := List.takeWhile_append_dropWhile Char.isDigit (List.dropWhile pyIsSpace rest)
              rw [habs, List.append_nil] at h'
              exact hall (by rw [h'])
            rw [if_neg hne, fracDigits_append_ws hws]
    · rw [List.cons_append, matchPriceAt_not_dollar hc, matchPriceAt_not_dollar hc]

theorem searchPrice_append_ws {ws : List Char} (hws : ∀ c ∈ ws, pyIsSpace c = true) :
    ∀ l : List Char, searchPrice (l ++ ws) = searchPrice l := by
  intro l
  induction l with
  | nil =>
    rw [List.nil_append]
    exact searchPrice_all_ws hws
  | cons c rest ih =>
    rw [List.cons_append, searchPrice_cons, searchPrice_cons, ← List.cons_append,
      matchPriceAt_append_ws hws (c :: rest), ih]

theorem searchPrice_pyStripL (l : List Char) : searchPrice (pyStripL l) = searchPrice l := by
  unfold pyStripL
  have hsplit : l.dropWhile pyIsSpace =
      ((l.dropWhile pyIsSpace).reverse.dropWhile pyIsSpace).reverse ++
        ((l.dropWhile pyIsSpace).reverse.takeWhile pyIsSpace).reverse := by
    calc l.dropWhile pyIsSpace = (l.dropWhile pyIsSpace).reverse.reverse := by
          rw [List.reverse_reverse]
    _ = ((l.dropWhile pyIsSpace).reverse.takeWhile pyIsSpace ++
          (l.dropWhile pyIsSpace).reverse.dropWhile pyIsSpace).reverse := by
          rw [List.takeWhile_append_dropWhile]
    _ = _ := by rw [List.reverse_append]
  have hws : ∀ c ∈ ((l.dropWhile pyIsSpace).reverse.takeWhile pyIsSpace).reverse,
      pyIsSpace c = true := by
    intro c hc
    rw [List.mem_reverse] at hc
    exact List.mem_takeWhile_imp hc
  calc searchPrice (((l.dropWhile pyIsSpace).reverse.dropWhile pyIsSpace).reverse)
      = searchPrice (((l.dropWhile pyIsSpace).reverse.dropWhile pyIsSpace).reverse ++
          ((l.dropWhile pyIsSpace).reverse.takeWhile pyIsSpace).reverse) :=
        (searchPrice_append_ws hws _).symm
  _ = searchPrice (l.dropWhile pyIsSpace) := by rw [← hsplit]
  _ = searchPrice l := searchPrice_dropWhile_ws l

/-! ## Idempotence of the importer -/

theorem lookupIdx_append_of_some {α : Type} {p : α → Bool} {l : List α} {i : ℕ}
    (h : lookupIdx p l = some i) (l' : List α) : lookupIdx p (l ++ l') = some i := by
  induction l generalizing i with
  | nil => simp [lookupIdx] at h
  | cons a rest ih =>
    rw [List.cons_append]
    unfold lookupIdx at h ⊢
    by_cases hp : p a = true
    · rw [if_pos hp] at h ⊢
      exact h
    · rw [if_neg hp] at h ⊢
      cases hrest : lookupIdx p rest with
      | none => rw [hrest] at h; simp at h
      | some j =>
        rw [hrest] at h
        simp only [Option.map_some'] at h
        rw [ih hrest]
        simpa using h

theorem lookupIdx_append_singleton {α : Type} {p : α → Bool} {l : List α}
    (h : lookupIdx p l = none) {a : α} (ha : p a = true) :
    lookupIdx p (l ++ [a]) = some l.length := by
  induction l with
  | nil => simp [lookupIdx, ha]
  | cons b rest ih =>
    rw [List.cons_append]
    unfold lookupIdx at h ⊢
    by_cases hp : p b = true
    · rw [if_pos hp] at h
      simp at h
    · rw [if_neg hp] at h ⊢
      have hrest : lookupIdx p rest = none := by
        cases hr : lookupIdx p rest with
        | none => rfl
        | some j =>
          rw [hr] at h
          simp at h
      rw [ih hrest]
      simp

theorem insertProduct_found {db : Db} {raw : String} {size : Option String} {i : ℕ}
    (h : lookupIdx (fun p => p.canonicalName == raw) db.products = some i) :
    insertProduct db raw size = (db, i) := by
  unfold insertProduct
  rw [h]

theorem insertProduct_fresh {db : Db} {raw : String} {size : Option String}
    (h : lookupIdx (fun p => p.canonicalName == raw) db.products = none) :
    insertProduct db raw size =
      ({ db with products := db.products ++ [⟨raw, size, none, none, none⟩] },
       db.products.length) := by
  unfold insertProduct
  rw [h]

theorem importRow_stores (sid : ℕ) (f : String) (db : Db) (r : CsvRow) :
    (importRow sid f db r).stores = db.stores := by
  by_cases hraw : rawNameOf r = ""
  · simp [importRow, hraw]
  · unfold importRow
    rw [if_neg hraw]
    cases hfind : lookupIdx (fun p => p.canonicalName == rawNameOf r) db.products with
    | some i =>
      simp only [insertProduct_found hfind]
      split <;> rfl
    | none =>
      simp only [insertProduct_fresh hfind]
      split <;> rfl

theorem importRow_products_append (sid : ℕ) (f : String) (db : Db) (r : CsvRow) :
    ∃ ps, (importRow sid f db r).products = db.products ++ ps := by
  by_cases hraw : rawNameOf r = ""
  · exact ⟨[], by simp [importRow, hraw]⟩
  · unfold importRow
    rw [if_neg hraw]
    cases hfind : lookupIdx (fun p => p.canonicalName == rawNameOf r) db.products with
    | some i =>
      simp only [insertProduct_found hfind]
      exact ⟨[], by split <;> simp⟩
    | none =>
      simp only [insertProduct_fresh hfind]
      exact ⟨[⟨rawNameOf r, sizeTextOf r, none, none, none⟩], by split <;> rfl⟩

theorem importRow_purchases_append (sid : ℕ) (f : String) (db : Db) (r : CsvRow) :
    ∃ qs, (importRow sid f db r).purchases = db.purchases ++ qs := by
  by_cases hraw : rawNameOf r = ""
  · exact ⟨[], by simp [importRow, hraw]⟩
  · unfold importRow
    rw [if_neg hraw]
    cases hfind : lookupIdx (fun p => p.canonicalName == rawNameOf r) db.products with
    | some i =>
      simp only [insertProduct_found hfind]
      split
      · exact ⟨[], by simp⟩
      · exact ⟨[purchaseOf sid i f r], rfl⟩
    | none =>
      simp only [insertProduct_fresh hfind]
      split
      · exact ⟨[], by simp⟩
      · exact ⟨[purchaseOf sid db.products.length f r], rfl⟩

theorem importRow_of_covered {sid : ℕ} {f : String} {db : Db} {r : CsvRow}
    (h : rowCovered sid f db r) : importRow sid f db r = db := by
  by_cases hraw : rawNameOf r = ""
  · unfold importRow
    rw [if_pos hraw]
  · rcases h with h | ⟨i, hfind, hdup⟩
    · exact absurd h hraw
    · unfold importRow
      rw [if_neg hraw]
      simp [insertProduct_found hfind, hdup]

theorem rowCovered_mono {sid : ℕ} {f : String} {db : Db} {r r' : CsvRow}
    (h : rowCovered sid f db r) : rowCovered sid f (importRow sid f db r') r := by
  rcases h with h | ⟨i, hfind, hdup⟩
  · exact Or.inl h
  · refine Or.inr ⟨i, ?_, ?_⟩
    · obtain ⟨ps, hps⟩ := importRow_products_append sid f db r'
      rw [hps]
      exact lookupIdx_append_of_some hfind ps
    · obtain ⟨qs, hqs⟩ := importRow_purchases_append sid f db r'
      unfold dupExists at hdup ⊢
      rw [hqs, List.any_append, hdup]
      rfl

theorem isDupRow_self (sid pid : ℕ) (f raw : String) (cur orig : Option ℚ)
    (size : Option String) (notes : Option String) :
    isDupRow ⟨sid, pid, f, raw, cur, orig, notes, size⟩ sid pid f raw cur orig size = true := by
  simp [isDupRow]

theorem dupExists_self (sid pid : ℕ) (f : String) (r : CsvRow) (qs : List Purchase) :
    dupExists (qs ++ [purchaseOf sid pid f r]) sid pid f r = true := by
  unfold dupExists
  rw [List.any_append]
  simp [purchaseOf, isDupRow_self]

theorem importRow_covers {sid : ℕ} {f : String} (db : Db) (r : CsvRow) :
    rowCovered sid f (importRow sid f db r) r := by
  by_cases hraw : rawNameOf r = ""
  · exact Or.inl hraw
  · refine Or.inr ?_
    unfold importRow
    rw [if_neg hraw]
    cases hfind : lookupIdx (fun p => p.canonicalName == rawNameOf r) db.products with
    | some i =>
      simp only [insertProduct_found hfind]
      by_cases hdup : dupExists db.purchases sid i f r = true
      · rw [if_pos hdup]
        exact ⟨i, hfind, hdup⟩
      · rw [if_neg hdup]
        exact ⟨i, hfind, dupExists_self sid i f r _⟩
    | none =>
      simp only [insertProduct_fresh hfind]
      by_cases hdup : dupExists db.purchases sid db.products.length f r = true
      · rw [if_pos hdup]
        exact ⟨db.products.length, lookupIdx_append_singleton hfind (by simp), hdup⟩
      · rw [if_neg hdup]
        exact ⟨db.products.length, lookupIdx_append_singleton hfind (by simp),
          dupExists_self sid db.products.length f r _⟩

theorem foldl_stores (sid : ℕ) (f : String) :
    ∀ (rows : List CsvRow) (db : Db), (rows.foldl (importRow sid f) db).stores = db.stores := by
  intro rows
  induction rows with
  | nil => intro db; rfl
  | cons a rest ih =>
    intro db
    rw [List.foldl_cons, ih, importRow_stores]

theorem foldl_covered_pres (sid : ℕ) (f : String) :
    ∀ (rows : List CsvRow) (db : Db) (r : CsvRow), rowCovered sid f db r →
      rowCovered sid f (rows.foldl (importRow sid f) db) r := by
  intro rows
  induction rows with
  | nil => intro db r h; exact h
  | cons a rest ih =>
    intro db r h
    rw [List.foldl_cons]
    exact ih _ r (rowCovered_mono h)

theorem foldl_covers_all (sid : ℕ) (f : String) :
    ∀ (rows : List CsvRow) (db : Db) (r : CsvRow), r ∈ rows →
      rowCovered sid f (rows.foldl (importRow sid f) db) r := by
  intro rows
  induction rows with
  | nil => intro db r h; cases h
  | cons a rest ih =>
    intro db r hr
    rw [List.foldl_cons]
    rcases List.mem_cons.mp hr with rfl | hr'
    · exact foldl_covered_pres sid f rest _ r (importRow_covers db r)
    · exact ih _ r hr'

theorem foldl_id_of_covered (sid : ℕ) (f : String) :
    ∀ (rows : List CsvRow) (db : Db), (∀ r ∈ rows, rowCovered sid f db r) →
      rows.foldl (importRow sid f) db = db := by
  intro rows
  induction rows with
  | nil => intro db _; rfl
  | cons a rest ih =>
    intro db h
    rw [List.foldl_cons, importRow_of_covered (h a (by simp))]
    exact ih db (fun r hr => h r (List.mem_cons_of_mem a hr))

theorem insertStore_eq_of_lookup {db : Db} {n : String} {i : ℕ}
    (h : lookupIdx (fun s => s == n) db.stores = some i) : insertStore db n = (db, i) := by
  unfold insertStore
  rw [h]

theorem insertStore_lookup (db : Db) (n : String) :
    lookupIdx (fun s => s == n) (insertStore db n).1.stores = some (insertStore db n).2 := by
  unfold insertStore
  cases hfind : lookupIdx (fun s => s == n) db.stores with
  | some i => simpa using hfind
  | none =>
    simp only
    exact lookupIdx_append_singleton hfind (by simp)

theorem importCsv_idem (db : Db) (store f : String) (rows : List CsvRow) :
    importCsv (importCsv db store f rows) store f rows = importCsv db store f rows := by
  unfold importCsv
  have hlook : lookupIdx (fun s => s == pyLower store)
      ((rows.foldl (importRow (insertStore db (pyLower store)).2 f)
        (insertStore db (pyLower store)).1).stores) = some (insertStore db (pyLower store)).2 := by
    rw [foldl_stores]
    exact insertStore_lookup db (pyLower store)
  rw [insertStore_eq_of_lookup hlook]
  exact foldl_id_of_covered _ f rows _
    (fun r hr => foldl_covers_all _ f rows _ r hr)

theorem price_getD_iff {a b : Option ℚ} (ha : ∀ q, a = some q → 0 ≤ q)
    (hb : ∀ q, b = some q → 0 ≤ q) : a.getD (-1) = b.getD (-1) ↔ a = b := by
  cases a with
  | none =>
    cases b with
    | none => simp
    | some q =>
      simp only [Option.getD_none, Option.getD_some]
      constructor
      · intro h
        exfalso
        have h1 := hb q rfl
        rw [← h] at h1
        norm_num at h1
      · intro h
        exact absurd h (by simp)
  | some q =>
    cases b with
    | none =>
      simp only [Option.getD_some, Option.getD_none]
      constructor
      · intro h
        exfalso
        have h1 := ha q rfl
        rw [h] at h1
        norm_num at h1
      · intro h
        exact absurd h (by simp)
    | some q' => simp

theorem size_getD_iff {a b : Option String} (ha : ¬ a = some "") (hb : ¬ b = some "") :
    a.getD "" = b.getD "" ↔ a = b := by
  cases a with
  | none =>
    cases b with
    | none => simp
    | some s =>
      simp only [Option.getD_none, Option.getD_some]
      constructor
      · intro h
        exact absurd (by rw [← h]) hb
      · intro h
        exact absurd h (by simp)
  | some s =>
    cases b with
    | none =>
      simp only [Option.getD_some, Option.getD_none]
      constructor
      · intro h
        exact absurd (by rw [h]) ha
      · intro h
        exact absurd h (by simp)
    | some s' => simp

theorem isDupRow_iff {e : Purchase} {sid pid : ℕ} {f raw : String} {cur orig : Option ℚ}
    {size : Option String}
    (hc1 : ∀ q, e.currentPrice = some q → 0 ≤ q) (hc2 : ∀ q, cur = some q → 0 ≤ q)
    (ho1 : ∀ q, e.originalPrice = some q → 0 ≤ q) (ho2 : ∀ q, orig = some q → 0 ≤ q)
    (hs1 : ¬ e.sizeText = some "") (hs2 : ¬ size = some "") :
    isDupRow e sid pid f raw cur orig size = true ↔
      (e.storeId = sid ∧ e.productId = pid ∧ e.sourceFile = f ∧ e.rawProductName = raw ∧
       e.currentPrice = cur ∧ e.originalPrice = orig ∧ e.sizeText = size) := by
  unfold isDupRow
  simp only [Bool.and_eq_true, beq_iff_eq]
  rw [price_getD_iff hc1 hc2, price_getD_iff ho1 ho2, size_getD_iff hs1 hs2]
  tauto

/-! ## The resolver never overwrites -/

theorem resolverPass_length (lk : String → Option Cand × Option Cand × Option Cand)
    (lim : ℕ) (ps : List Product) : (resolverPass lk lim ps).length = ps.length := by
  simp [resolverPass]

theorem resolverPass_not_missing (lk : String → Option Cand × Option Cand × Option Cand)
    (lim : ℕ) (ps : List Product) (i : ℕ) (hi : i < ps.length)
    (h : missingImage (ps.getD i default) = false) :
    (resolverPass lk lim ps).getD i default = ps.getD i default := by
  unfold resolverPass
  have hlen : i < ((List.range ps.length).map (fun i =>
      if ((if lim = 0 then
            (List.range ps.length).filter (fun j => missingImage (ps.getD j default))
          else ((List.range ps.length).filter
            (fun j => missingImage (ps.getD j default))).take lim)).contains i then
        applyResolution (ps.getD i default)
          (resolveProduct (lk (ps.getD i default).canonicalName).1
            (lk (ps.getD i default).canonicalName).2.1
            (lk (ps.getD i default).canonicalName).2.2 (ps.getD i default).canonicalName)
      else ps.getD i default)).length := by
    simpa using hi
  rw [List.getD_eq_getElem _ _ hlen, List.getElem_map, List.getElem_range]
  have hnotsel : ∀ sel : List ℕ,
      (∀ j ∈ sel, missingImage (ps.getD j default) = true) → sel.contains i = false := by
    intro sel hsel
    by_contra hc
    have hc' : sel.contains i = true := by
      cases hcc : sel.contains i with
      | true => rfl
      | false => exact absurd hcc hc
    have hmem : i ∈ sel := by simpa using hc'
    rw [hsel i hmem] at h
    cases h
  rw [hnotsel _ ?_]
  · simp
  · intro j hj
    by_cases hlim : lim = 0
    · rw [if_pos hlim] at hj
      exact (List.mem_filter.mp hj).2
    · rw [if_neg hlim] at hj
      exact (List.mem_filter.mp (List.mem_of_mem_take hj)).2

/-! ## A raised catalog query is equivalent to an empty one -/

theorem offFold_congr (sim : String → String → ℚ) (pname : String)
    {o o' : String → Option (List OffEntry)}
    (h : ∀ q, o q = o' q ∨ (o q = none ∧ o' q = some [])) :
    ∀ (vs : List String) (st : Option Cand × ℚ),
      vs.foldl (fun st v => match o v with
        | none => st
        | some entries => offScan sim pname st entries) st =
      vs.foldl (fun st v => match o' v with
        | none => st
        | some entries => offScan sim pname st entries) st := by
  intro vs
  induction vs with
  | nil => intro st; rfl
  | cons v rest ih =>
    intro st
    rw [List.foldl_cons, List.foldl_cons]
    rcases h v with hv | ⟨hv1, hv2⟩
    · rw [hv]
      exact ih _
    · rw [hv1, hv2]
      exact ih _

theorem search_openfoodfacts_raise_eq_empty (sim : String → String → ℚ)
    {o o' : String → Option (List OffEntry)} (pname : String)
    (h : ∀ q, o q = o' q ∨ (o q = none ∧ o' q = some [])) :
    search_openfoodfacts sim o pname = search_openfoodfacts sim o' pname := by
  unfold search_openfoodfacts
  rw [offFold_congr sim pname h]

theorem ovFold_congr (sim : String → String → ℚ) (pname : String)
    {o o' : String → Option (List OvEntry)}
    (h : ∀ q, o q = o' q ∨ (o q = none ∧ o' q = some [])) :
    ∀ (vs : List String) (st : Option Cand × ℚ),
      vs.foldl (fun st v => match o v with
        | none => st
        | some entries => ovScan sim pname st entries) st =
      vs.foldl (fun st v => match o' v with
        | none => st
        | some entries => ovScan sim pname st entries) st := by
  intro vs
  induction vs with
  | nil => intro st; rfl
  | cons v rest ih =>
    intro st
    rw [List.foldl_cons, List.foldl_cons]
    rcases h v with hv | ⟨hv1, hv2⟩
    · rw [hv]
      exact ih _
    · rw [hv1, hv2]
      exact ih _

theorem search_openverse_raise_eq_empty (sim : String → String → ℚ)
    {o o' : String → Option (List OvEntry)} (pname : String)
    (h : ∀ q, o q = o' q ∨ (o q = none ∧ o' q = some [])) :
    search_openverse sim o pname = search_openverse sim o' pname := by
  unfold search_openverse
  rw [ovFold_congr sim pname h]

theorem search_wikipedia_raise_eq_empty (sim : String → String → ℚ)
    {o o' : String → Option (List WikiPage)} (pname : String)
    (h : ∀ q, o q = o' q ∨ (o q = none ∧ o' q = some [])) :
    search_wikipedia sim o pname = search_wikipedia sim o' pname := by
  unfold search_wikipedia
  rcases h pname with hv | ⟨hv1, hv2⟩
  · rw [hv]
  · rw [hv1, hv2]
    rfl

/-! ## Fallback table, value bounds, and decision-chain facts -/

theorem generic_fallback_conf {pname : String} {r : String × String × ℚ}
    (h : generic_fallback_image pname = some r) : r.2.2 = 35/100 := by
  unfold generic_fallback_image at h
  obtain ⟨kv, _, hkv⟩ := Option.map_eq_some'.mp h
  rw [← hkv]

theorem generic_fallback_isSome_iff (pname : String) :
    (generic_fallback_image pname).isSome = true ↔
      ∃ kv ∈ GENERIC_KEYWORD_IMAGES, strContains kv.1 (normalize_name pname) = true := by
  unfold generic_fallback_image
  rw [Option.isSome_map']
  exact List.find?_isSome

theorem groupVal_nonneg (p : List Char × List Char) : 0 ≤ groupVal p := by
  unfold groupVal
  have h1 : (0 : ℚ) ≤ (digitsNat p.1 : ℚ) := by positivity
  have h2 : (0 : ℚ) ≤ (digitsNat p.2 : ℚ) / ((10 ^ p.2.length : ℕ) : ℚ) := by positivity
  linarith

theorem parse_price_nonneg {s : String} {v : ℚ} (h : parse_price s = some v) : 0 ≤ v := by
  unfold parse_price at h
  split at h
  · cases h
  · obtain ⟨p, _, hp⟩ := Option.map_eq_some'.mp h
    rw [← hp]
    exact groupVal_nonneg p

theorem insertStore_products (db : Db) (n : String) :
    (insertStore db n).1.products = db.products := by
  unfold insertStore
  cases h : lookupIdx (fun s => s == n) db.stores <;> rfl

theorem importRow_products_conf (sid : ℕ) (f : String) (db : Db) (r : CsvRow) :
    ∃ ps, (importRow sid f db r).products = db.products ++ ps ∧
      ∀ p ∈ ps, p.imageConfidence = none := by
  by_cases hraw : rawNameOf r = ""
  · exact ⟨[], by simp [importRow, hraw], by simp⟩
  · unfold importRow
    rw [if_neg hraw]
    cases hfind : lookupIdx (fun p => p.canonicalName == rawNameOf r) db.products with
    | some i =>
      simp only [insertProduct_found hfind]
      exact ⟨[], by split <;> simp, by simp⟩
    | none =>
      simp only [insertProduct_fresh hfind]
      exact ⟨[⟨rawNameOf r, sizeTextOf r, none, none, none⟩], by split <;> rfl, by simp⟩

theorem importRow_purchases_notes (sid : ℕ) (f : String) (db : Db) (r : CsvRow) :
    ∃ qs, (importRow sid f db r).purchases = db.purchases ++ qs ∧
      ∀ p ∈ qs, p.notes = derivedNotes (priceColOf r) (notesColOf r) := by
  by_cases hraw : rawNameOf r = ""
  · exact ⟨[], by simp [importRow, hraw], by simp⟩
  · unfold importRow
    rw [if_neg hraw]
    cases hfind : lookupIdx (fun p => p.canonicalName == rawNameOf r) db.products with
    | some i =>
      simp only [insertProduct_found hfind]
      split
      · exact ⟨[], by simp, by simp⟩
      · exact ⟨[purchaseOf sid i f r], rfl, by simp [purchaseOf]⟩
    | none =>
      simp only [insertProduct_fresh hfind]
      split
      · exact ⟨[], by simp, by simp⟩
      · exact ⟨[purchaseOf sid db.products.length f r], rfl, by simp [purchaseOf]⟩

theorem foldl_products_conf (sid : ℕ) (f : String) :
    ∀ (rows : List CsvRow) (db : Db) (p : Product),
      p ∈ (rows.foldl (importRow sid f) db).products →
      p ∈ db.products ∨ p.imageConfidence = none := by
  intro rows
  induction rows with
  | nil => intro db p h; exact Or.inl h
  | cons a rest ih =>
    intro db p h
    rw [List.foldl_cons] at h
    rcases ih _ p h with h' | h'
    · obtain ⟨ps, hps, hconf⟩ := importRow_products_conf sid f db a
      rw [hps] at h'
      rcases List.mem_append.mp h' with h'' | h''
      · exact Or.inl h''
      · exact Or.inr (hconf p h'')
    · exact Or.inr h'

theorem importCsv_products_conf (db : Db) (store f : String) (rows : List CsvRow)
    (p : Product) (h : p ∈ (importCsv db store f rows).products) :
    p ∈ db.products ∨ p.imageConfidence = none := by
  unfold importCsv at h
  rcases foldl_products_conf _ f rows _ p h with h' | h'
  · rw [insertStore_products] at h'
    exact Or.inl h'
  · exact Or.inr h'

theorem clears_false_iff (o : Option Cand) (t : ℚ) :
    clears o t = false ↔ (o = none ∨ ∃ h, o = some h ∧ ¬ t ≤ h.score) := by
  cases o with
  | none => simp [clears]
  | some h => simp [clears]

theorem resolveProduct_acceptA {h : Cand} (hs : 42/100 ≤ h.score)
    (b c : Option Cand) (pname : String) :
    resolveProduct (some h) b c pname = some (h.url, "openfoodfacts", confOFF h.score) := by
  show (if 42/100 ≤ h.score then some (h.url, "openfoodfacts", confOFF h.score)
    else resolveFromB b c pname) = _
  rw [if_pos hs]

theorem resolveProduct_rejectA {a : Option Cand} (ha : clears a (42/100) = false)
    (b c : Option Cand) (pname : String) :
    resolveProduct a b c pname = resolveFromB b c pname := by
  rcases (clears_false_iff a _).mp ha with rfl | ⟨h, rfl, hs⟩
  · rfl
  · show (if 42/100 ≤ h.score then some (h.url, "openfoodfacts", confOFF h.score)
      else resolveFromB b c pname) = _
    rw [if_neg hs]

theorem resolveFromB_accept {h : Cand} (hs : 33/100 ≤ h.score)
    (c : Option Cand) (pname : String) :
    resolveFromB (some h) c pname = some (h.url, "openverse", confOV h.score) := by
  show (if 33/100 ≤ h.score then some (h.url, "openverse", confOV h.score)
    else resolveFromC c pname) = _
  rw [if_pos hs]

theorem resolveFromB_reject {b : Option Cand} (hb : clears b (33/100) = false)
    (c : Option Cand) (pname : String) :
    resolveFromB b c pname = resolveFromC c pname := by
  rcases (clears_false_iff b _).mp hb with rfl | ⟨h, rfl, hs⟩
  · rfl
  · show (if 33/100 ≤ h.score then some (h.url, "openverse", confOV h.score)
      else resolveFromC c pname) = _
    rw [if_neg hs]

theorem resolveFromC_accept {h : Cand} (hs : 45/100 ≤ h.score) (pname : String) :
    resolveFromC (some h) pname = some (h.url, "wikipedia", confWiki h.score) := by
  show (if 45/100 ≤ h.score then some (h.url, "wikipedia", confWiki h.score)
    else (generic_fallback_image pname).map (fun r => (r.1, "generic", r.2.2))) = _
  rw [if_pos hs]

theorem resolveFromC_reject {c : Option Cand} (hc : clears c (45/100) = false) (pname : String) :
    resolveFromC c pname =
      (generic_fallback_image pname).map (fun r => (r.1, "generic", r.2.2)) := by
  rcases (clears_false_iff c _).mp hc with rfl | ⟨h, rfl, hs⟩
  · rfl
  · show (if 45/100 ≤ h.score then some (h.url, "wikipedia", confWiki h.score)
      else (generic_fallback_image pname).map (fun r => (r.1, "generic", r.2.2))) = _
    rw [if_neg hs]

/-! ## Character set of normalized names -/

theorem wsM_cons (pw : Bool) (c : Char) (rest : List Char) :
    wsM pw (c :: rest) =
      if pyIsSpace c = true then some (rest.dropWhile pyIsSpace) else none := rfl

theorem wsM_some {pw : Bool} {l rem : List Char} (h : wsM pw l = some rem) :
    ∃ c rest, l = c :: rest ∧ pyIsSpace c = true ∧ rem = rest.dropWhile pyIsSpace := by
  cases l with
  | nil => cases h
  | cons c rest =>
    rw [wsM_cons] at h
    by_cases hsp : pyIsSpace c = true
    · rw [if_pos hsp] at h
      exact ⟨c, rest, rfl, hsp, (Option.some.inj h).symm⟩
    · rw [if_neg hsp] at h
      cases h

theorem wsM_none_head {pw : Bool} {c : Char} {rest : List Char}
    (h : wsM pw (c :: rest) = none) : pyIsSpace c = false := by
  rw [wsM_cons] at h
  by_cases hsp : pyIsSpace c = true
  · rw [if_pos hsp] at h
    cases h
  · simpa using hsp

theorem scanRepl_cons (m : Bool → List Char → Option (List Char)) (fuel : ℕ) (pw : Bool)
    (c : Char) (rest : List Char) :
    scanRepl m (fuel + 1) pw (c :: rest) =
      match m pw (c :: rest) with
      | some rem => ' ' :: scanRepl m fuel true rem
      | none => c :: scanRepl m fuel (isWordChar c) rest := rfl

theorem mem_scanRepl_wsM :
    ∀ (fuel : ℕ) (pw : Bool) (l : List Char), l.length < fuel →
      ∀ c ∈ scanRepl wsM fuel pw l, c = ' ' ∨ (c ∈ l ∧ pyIsSpace c = false) := by
  intro fuel
  induction fuel with
  | zero =>
    intro pw l h
    omega
  | succ n ih =>
    intro pw l hlen c hc
    cases l with
    | nil => cases hc
    | cons c0 rest =>
      rw [scanRepl_cons] at hc
      cases hm : wsM pw (c0 :: rest) with
      | some rem =>
        rw [hm] at hc
        rcases List.mem_cons.mp hc with rfl | hc'
        · exact Or.inl rfl
        · obtain ⟨c1, rest1, heq1, hsp, hrem⟩ := wsM_some hm
          injection heq1 with h1 h2
          have hremlen : rem.length < n := by
            have hsub : (rest1.dropWhile pyIsSpace).length ≤ rest1.length :=
              (List.dropWhile_sublist pyIsSpace).length_le
            subst h2
            rw [hrem]
            simp only [List.length_cons] at hlen
            omega
          rcases ih true rem hremlen c hc' with h | ⟨hmem, hns⟩
          · exact Or.inl h
          · refine Or.inr ⟨?_, hns⟩
            subst h2
            rw [hrem] at hmem
            exact List.mem_cons_of_mem _ ((List.dropWhile_sublist pyIsSpace).subset hmem)
      | none =>
        rw [hm] at hc
        rcases List.mem_cons.mp hc with rfl | hc'
        · exact Or.inr ⟨List.mem_cons_self _ _, wsM_none_head hm⟩
        · have hrlen : rest.length < n := by
            simp only [List.length_cons] at hlen
            omega
          rcases ih (isWordChar c0) rest hrlen c hc' with h | ⟨hmem, hns⟩
          · exact Or.inl h
          · exact Or.inr ⟨List.mem_cons_of_mem _ hmem, hns⟩

theorem mem_pyStripL {c : Char} {l : List Char} (h : c ∈ pyStripL l) : c ∈ l := by
  unfold pyStripL at h
  rw [List.mem_reverse] at h
  have h1 : c ∈ (l.dropWhile pyIsSpace).reverse := (List.dropWhile_sublist pyIsSpace).subset h
  rw [List.mem_reverse] at h1
  exact (List.dropWhile_sublist pyIsSpace).subset h1

theorem normalize_name_chars (name : String) :
    ∀ c ∈ (normalize_name name).data,
      ('a' ≤ c ∧ c ≤ 'z') ∨ ('0' ≤ c ∧ c ≤ '9') ∨ c = '-' ∨ c = '\'' ∨ c = ' ' := by
  intro c hc
  unfold normalize_name at hc
  simp only at hc
  have hc1 := mem_pyStripL hc
  unfold applyScan at hc1
  have hc2 := mem_scanRepl_wsM _ false _ (by omega) c hc1
  rcases hc2 with rfl | ⟨hmem, hns⟩
  · tauto
  · obtain ⟨c', hc', heq⟩ := List.mem_map.mp hmem
    by_cases hP : ('a' ≤ c' ∧ c' ≤ 'z') ∨ ('0' ≤ c' ∧ c' ≤ '9') ∨ pyIsSpace c' = true ∨ c' = '-' ∨ c' = '\''
    · rw [if_pos hP] at heq
      subst heq
      rcases hP with h | h | h | h | h
      · exact Or.inl h
      · exact Or.inr (Or.inl h)
      · rw [h] at hns
        cases hns
      · exact Or.inr (Or.inr (Or.inl h))
      · exact Or.inr (Or.inr (Or.inr (Or.inl h)))
    · rw [if_neg hP] at heq
      subst heq
      tauto

/-! ## Claims -/

/-- C1: the Resolver tries catalog A (OpenFoodFacts), catalog B (Openverse),
catalog C (Wikipedia) and the static fallback in this fixed order; it stops
at the first source whose best candidate clears its threshold (`0.42` / `0.33`
/ `0.45`), a later source's result being irrelevant once an earlier one is
accepted; the fallback accepts exactly when some table keyword occurs as a
substring of the normalized name. -/
theorem C1_resolver_pipeline_order :
    (∀ (h : Cand) (b c : Option Cand) (pname : String), 42/100 ≤ h.score →
      resolveProduct (some h) b c pname = some (h.url, "openfoodfacts", confOFF h.score)) ∧
    (∀ (a : Option Cand) (h : Cand) (c : Option Cand) (pname : String),
      clears a (42/100) = false → 33/100 ≤ h.score →
      resolveProduct a (some h) c pname = some (h.url, "openverse", confOV h.score)) ∧
    (∀ (a b : Option Cand) (h : Cand) (pname : String),
      clears a (42/100) = false → clears b (33/100) = false → 45/100 ≤ h.score →
      resolveProduct a b (some h) pname = some (h.url, "wikipedia", confWiki h.score)) ∧
    (∀ (a b c : Option Cand) (pname : String),
      clears a (42/100) = false → clears b (33/100) = false → clears c (45/100) = false →
      resolveProduct a b c pname =
        (generic_fallback_image pname).map (fun r => (r.1, "generic", r.2.2))) ∧
    (∀ pname : String, (generic_fallback_image pname).isSome = true ↔
      ∃ kv ∈ GENERIC_KEYWORD_IMAGES, strContains kv.1 (normalize_name pname) = true) := by
  refine ⟨?_, ?_, ?_, ?_, ?_⟩
  · intro h b c pname hs
    exact resolveProduct_acceptA hs b c pname
  · intro a h c pname ha hs
    rw [resolveProduct_rejectA ha]
    exact resolveFromB_accept hs c pname
  · intro a b h pname ha hb hs
    rw [resolveProduct_rejectA ha, resolveFromB_reject hb]
    exact resolveFromC_accept hs pname
  · intro a b c pname ha hb hc
    rw [resolveProduct_rejectA ha, resolveFromB_reject hb, resolveFromC_reject hc]
  · intro pname
    exact generic_fallback_isSome_iff pname

/-- Witness for C1 at concrete inputs: one instantiation per conjunct, with
every hypothesis discharged concretely. -/
theorem C1_witness :
    resolveProduct (some ⟨"uA", "nA", 1⟩) none none "x"
      = some ("uA", "openfoodfacts", confOFF 1) ∧
    resolveProduct none (some ⟨"uB", "nB", 1⟩) none "x"
      = some ("uB", "openverse", confOV 1) ∧
    resolveProduct none none (some ⟨"uC", "nC", 1⟩) "x"
      = some ("uC", "wikipedia", confWiki 1) ∧
    resolveProduct none none none "x"
      = (generic_fallback_image "x").map (fun r => (r.1, "generic", r.2.2)) ∧
    ((generic_fallback_image "Bananas").isSome = true ↔
      ∃ kv ∈ GENERIC_KEYWORD_IMAGES, strContains kv.1 (normalize_name "Bananas") = true) :=
  ⟨C1_resolver_pipeline_order.1 ⟨"uA", "nA", 1⟩ none none "x" (by norm_num),
   C1_resolver_pipeline_order.2.1 none ⟨"uB", "nB", 1⟩ none "x" rfl (by norm_num),
   C1_resolver_pipeline_order.2.2.1 none none ⟨"uC", "nC", 1⟩ "x" rfl rfl (by norm_num),
   C1_resolver_pipeline_order.2.2.2.1 none none none "x" rfl rfl rfl,
   C1_resolver_pipeline_order.2.2.2.2 "Bananas"⟩

/-- C2: re-importing the same CSV file into the same database is a no-op
(the whole database state, in particular the set of purchase rows, is
unchanged by the second run), and — for the price and size values the
importer can actually produce (non-negative prices, no empty-string size) —
a row is skipped as a duplicate exactly when store, product, source file,
raw name, current price, original price and size text all match an existing
purchase row. -/
theorem C2_import_idempotent :
    (∀ (db : Db) (store f : String) (rows : List CsvRow),
      importCsv (importCsv db store f rows) store f rows = importCsv db store f rows) ∧
    (∀ (e : Purchase) (sid pid : ℕ) (f raw : String) (cur orig : Option ℚ)
      (size : Option String),
      (∀ q, e.currentPrice = some q → 0 ≤ q) → (∀ q, cur = some q → 0 ≤ q) →
      (∀ q, e.originalPrice = some q → 0 ≤ q) → (∀ q, orig = some q → 0 ≤ q) →
      ¬ e.sizeText = some "" → ¬ size = some "" →
      (isDupRow e sid pid f raw cur orig size = true ↔
        (e.storeId = sid ∧ e.productId = pid ∧ e.sourceFile = f ∧ e.rawProductName = raw ∧
         e.currentPrice = cur ∧ e.originalPrice = orig ∧ e.sizeText = size))) :=
  ⟨importCsv_idem,
   fun _ _ _ _ _ _ _ _ hc1 hc2 ho1 ho2 hs1 hs2 => isDupRow_iff hc1 hc2 ho1 ho2 hs1 hs2⟩

/-- Witness for C2's duplicate-criterion conjunct at a concrete purchase row,
with all hypotheses discharged. -/
theorem C2_witness :
    isDupRow ⟨0, 0, "f.csv", "x", none, none, none, none⟩ 0 0 "f.csv" "x" none none none
      = true ↔
    ((0 : ℕ) = 0 ∧ (0 : ℕ) = 0 ∧ "f.csv" = "f.csv" ∧ "x" = "x" ∧
     (none : Option ℚ) = none ∧ (none : Option ℚ) = none ∧
     (none : Option String) = none) :=
  C2_import_idempotent.2 ⟨0, 0, "f.csv", "x", none, none, none, none⟩ 0 0 "f.csv" "x"
    none none none (fun q h => by cases h) (fun q h => by cases h)
    (fun q h => by cases h) (fun q h => by cases h) (by simp) (by simp)

/-- Counterexample to C3 as stated: with primary price field `"$3.99 est"`
and secondary column `"$2.99"`, the secondary column *does* yield a
parseable price, so the claim dictates the note `"$3.99 est"` (the primary
field carries the `est` marker); the importer instead stores the secondary
text `"$2.99"` — line 91 keeps any non-empty secondary column as the note,
parseable or not.  The concrete imported row shows the stored value. -/
theorem C3_counterexample :
    (importRow 0 "f.csv" ⟨[], [], []⟩ ⟨some "x", none, none, some "$3.99 est", none, some "$2.99"⟩).purchases
      = [purchaseOf 0 0 "f.csv" ⟨some "x", none, none, some "$3.99 est", none, some "$2.99"⟩] ∧
    (purchaseOf 0 0 "f.csv" ⟨some "x", none, none, some "$3.99 est", none, some "$2.99"⟩).notes
      = some "$2.99" ∧
    claimNotes (priceColOf ⟨some "x", none, none, some "$3.99 est", none, some "$2.99"⟩)
      (notesColOf ⟨some "x", none, none, some "$3.99 est", none, some "$2.99"⟩)
      = some "$3.99 est" ∧
    (some "$2.99" : Option String) ≠ some "$3.99 est" :=
  ⟨rfl, by decide, by decide, by decide⟩

/-- C3 (amended): for every imported row, the stored note is the non-empty
raw text of the secondary "original price / notes" column when that column
is non-empty (whether or not it parses as a price); otherwise the primary
price field's raw text when it contains one of the markers `est`, `/lb`,
`variable` (case-insensitive); otherwise null. -/
theorem C3_notes_derivation :
    (∀ (sid : ℕ) (f : String) (db : Db) (r : CsvRow),
      ∃ qs, (importRow sid f db r).purchases = db.purchases ++ qs ∧
        ∀ p ∈ qs, p.notes = derivedNotes (priceColOf r) (notesColOf r)) ∧
    (∀ pc nc : String,
      (¬ nc = "" → derivedNotes pc nc = some nc) ∧
      (nc = "" → hasMarker pc = true → derivedNotes pc nc = some pc) ∧
      (nc = "" → hasMarker pc = false → derivedNotes pc nc = none)) := by
  constructor
  · exact importRow_purchases_notes
  · intro pc nc
    refine ⟨?_, ?_, ?_⟩
    · intro h
      unfold derivedNotes
      rw [if_pos h]
    · intro h hm
      unfold derivedNotes
      rw [if_neg (by simp [h]), if_pos hm]
    · intro h hm
      unfold derivedNotes
      rw [if_neg (by simp [h]), if_neg (by simp [hm])]

/-- Witness for C3's amended statement at concrete inputs, one per branch of
the notes rule. -/
theorem C3_witness :
    derivedNotes "$3.99 est" "$2.99" = some "$2.99" ∧
    derivedNotes "$3.99 est" "" = some "$3.99 est" ∧
    derivedNotes "$3.99" "" = none :=
  ⟨(C3_notes_derivation.2 "$3.99 est" "$2.99").1 (by decide),
   (C3_notes_derivation.2 "$3.99 est" "").2.1 rfl (by decide),
   (C3_notes_derivation.2 "$3.99" "").2.2 rfl (by decide)⟩

/-- Counterexample to C4 as stated: `"$ 3"` contains no `$` followed
(immediately) by digits, so under the claim's pattern parsing must return no
value — but `parse_price` accepts whitespace between the `$` and the digits
(the regex has `\s*` there) and returns `3`. -/
theorem C4_counterexample :
    parse_price "$ 3" = some 3 ∧ claimPriceSearch "$ 3".data = none := by
  constructor
  · have h : searchPrice (pyStripL "$ 3".data) = some (['3'], []) := by decide
    have h1 : digitsNat ['3'] = 3 := by decide
    have h2 : digitsNat [] = 0 := by decide
    rw [parse_price, if_neg (by decide), h]
    simp [groupVal, h1, h2]
  · decide

/-- C4 (amended): for every input string, price parsing returns the numeric
value of the first occurrence of a `$` followed by optional whitespace, then
digits and an optional one-or-two-digit decimal fraction, and no value when
no such pattern occurs (`searchPrice` is that first-occurrence scan over the
raw input; stripping and the empty-string shortcut change nothing); in
particular `"$3.99"` and `"$3.99 est"` parse to `3.99` and `""` to no
value. -/
theorem C4_price_pattern :
    (∀ s : String, parse_price s = (searchPrice s.data).map groupVal) ∧
    parse_price "$3.99" = some (399/100) ∧
    parse_price "$3.99 est" = some (399/100) ∧
    parse_price "" = none := by
  refine ⟨?_, ?_, ?_, by decide⟩
  · intro s
    unfold parse_price
    by_cases hs : s = ""
    · subst hs
      rw [if_pos rfl]
      rfl
    · rw [if_neg hs, searchPrice_pyStripL]
  · have h : searchPrice (pyStripL "$3.99".data) = some (['3'], ['9', '9']) := by decide
    have h1 : digitsNat ['3'] = 3 := by decide
    have h2 : digitsNat ['9', '9'] = 99 := by decide
    rw [parse_price, if_neg (by decide), h]
    simp [groupVal, h1, h2]
    norm_num
  · have h : searchPrice (pyStripL "$3.99 est".data) = some (['3'], ['9', '9']) := by decide
    have h1 : digitsNat ['3'] = 3 := by decide
    have h2 : digitsNat ['9', '9'] = 99 := by decide
    rw [parse_price, if_neg (by decide), h]
    simp [groupVal, h1, h2]
    norm_num

/-- C5: for each catalog source the confidence is a non-decreasing function
of the candidate score and bounded above by the source cap (`0.95` for A,
`0.82` for B, `0.85` for C); proven for all rational scores, hence in
particular on `[0, 1]`. -/
theorem C5_confidence_monotone_capped (s t : ℚ)
    (hs0 : 0 ≤ s) (hs1 : s ≤ 1) (ht0 : 0 ≤ t) (ht1 : t ≤ 1) (hst : s ≤ t) :
    (confOFF s ≤ confOFF t ∧ confOV s ≤ confOV t ∧ confWiki s ≤ confWiki t) ∧
    (confOFF t ≤ 95/100 ∧ confOV t ≤ 82/100 ∧ confWiki t ≤ 85/100) :=
  ⟨⟨confOFF_mono hst, confOV_mono hst, confWiki_mono hst⟩,
   confOFF_le_cap t, confOV_le_cap t, confWiki_le_cap t⟩

/-- Witness for C5 at the endpoints of the score range. -/
theorem C5_witness :
    (confOFF 0 ≤ confOFF 1 ∧ confOV 0 ≤ confOV 1 ∧ confWiki 0 ≤ confWiki 1) ∧
    (confOFF 1 ≤ 95/100 ∧ confOV 1 ≤ 82/100 ∧ confWiki 1 ≤ 85/100) :=
  C5_confidence_monotone_capped 0 1 (by norm_num) (by norm_num) (by norm_num)
    (by norm_num) (by norm_num)

/-- C6: name normalization (lower-casing, trademark-glyph and apostrophe
handling, parenthetical removal, unit-quantity removal, the marketing
stoplist, the character filter and whitespace collapsing) sends
`"Organic Bananas (Family Size) 2 lb"` to exactly `"bananas"`; moreover
every character it ever emits is a lower-case letter, digit, hyphen,
apostrophe or single space. -/
theorem C6_normalize_name :
    normalize_name "Organic Bananas (Family Size) 2 lb" = "bananas" ∧
    (∀ (name : String), ∀ c ∈ (normalize_name name).data,
      ('a' ≤ c ∧ c ≤ 'z') ∨ ('0' ≤ c ∧ c ≤ '9') ∨ c = '-' ∨ c = '\'' ∨ c = ' ') :=
  ⟨by decide, normalize_name_chars⟩

/-- Witness for C6's character-set conjunct at a concrete name and
character. -/
theorem C6_witness :
    ('a' ≤ 'b' ∧ 'b' ≤ 'z') ∨ ('0' ≤ 'b' ∧ 'b' ≤ '9') ∨ 'b' = '-' ∨ 'b' = '\'' ∨ 'b' = ' ' :=
  C6_normalize_name.2 "Bananas!" 'b' (by decide)

/-- C7: the Resolver selects only products whose image URL is `NULL` or
empty — a product with a populated image URL is returned unchanged by a
pass (whatever the catalog lookups and `--limit` say) — and therefore a
second run never changes an image URL (or source tag or confidence) that
the first run populated. -/
theorem C7_resolver_never_overwrites :
    (∀ (lk : String → Option Cand × Option Cand × Option Cand) (lim : ℕ)
       (ps : List Product) (i : ℕ), i < ps.length →
       missingImage (ps.getD i default) = false →
       (resolverPass lk lim ps).getD i default = ps.getD i default) ∧
    (∀ (lk1 lk2 : String → Option Cand × Option Cand × Option Cand) (lim1 lim2 : ℕ)
       (ps : List Product) (i : ℕ), i < ps.length →
       missingImage ((resolverPass lk1 lim1 ps).getD i default) = false →
       (resolverPass lk2 lim2 (resolverPass lk1 lim1 ps)).getD i default
         = (resolverPass lk1 lim1 ps).getD i default) := by
  refine ⟨resolverPass_not_missing, ?_⟩
  intro lk1 lk2 lim1 lim2 ps i hi h
  exact resolverPass_not_missing lk2 lim2 _ i (by rw [resolverPass_length]; exact hi) h

/-- Witness for C7 on a one-product table whose image URL is already
populated. -/
theorem C7_witness :
    (resolverPass (fun _ => (none, none, none)) 0
        [⟨"x", none, some "http-u", some "generic", some (35/100)⟩]).getD 0 default
      = ([⟨"x", none, some "http-u", some "generic", some (35/100)⟩] : List Product).getD 0 default ∧
    (resolverPass (fun _ => (none, none, none)) 0
        (resolverPass (fun _ => (none, none, none)) 0
          [⟨"x", none, some "http-u", some "generic", some (35/100)⟩])).getD 0 default
      = (resolverPass (fun _ => (none, none, none)) 0
          [⟨"x", none, some "http-u", some "generic", some (35/100)⟩]).getD 0 default :=
  ⟨C7_resolver_never_overwrites.1 (fun _ => (none, none, none)) 0
     [⟨"x", none, some "http-u", some "generic", some (35/100)⟩] 0 (by decide) (by decide),
   C7_resolver_never_overwrites.2 (fun _ => (none, none, none)) (fun _ => (none, none, none))
     0 0 [⟨"x", none, some "http-u", some "generic", some (35/100)⟩] 0 (by decide) (by decide)⟩

/-- C8: every confidence the system stores lies in `[0,1]`: for scores in
`[0,1]` each catalog formula lands in `[0,1]`, the static fallback's
confidence is exactly `0.35`, and the Importer creates products only with a
`NULL` confidence. -/
theorem C8_confidence_in_unit_interval :
    (∀ s : ℚ, 0 ≤ s → s ≤ 1 →
      (0 ≤ confOFF s ∧ confOFF s ≤ 1) ∧ (0 ≤ confOV s ∧ confOV s ≤ 1) ∧
      (0 ≤ confWiki s ∧ confWiki s ≤ 1)) ∧
    (∀ (pname : String) (r : String × String × ℚ),
      generic_fallback_image pname = some r → r.2.2 = 35/100) ∧
    (∀ (db : Db) (store f : String) (rows : List CsvRow) (p : Product),
      p ∈ (importCsv db store f rows).products →
      p ∈ db.products ∨ p.imageConfidence = none) := by
  refine ⟨?_, fun _ _ h => generic_fallback_conf h, importCsv_products_conf⟩
  intro s hs0 _
  refine ⟨⟨?_, ?_⟩, ⟨?_, ?_⟩, ⟨?_, ?_⟩⟩
  · have := confOFF_lb hs0
    linarith
  · have := confOFF_le_cap s
    linarith
  · have := confOV_lb hs0
    linarith
  · have := confOV_le_cap s
    linarith
  · have := confWiki_lb hs0
    linarith
  · have := confWiki_le_cap s
    linarith

/-- Witness for C8: the formulas at score `1/2`, the fallback at a name that
hits the `banana` keyword, and a freshly imported product. -/
theorem C8_witness :
    ((0 ≤ confOFF (1/2) ∧ confOFF (1/2) ≤ 1) ∧ (0 ≤ confOV (1/2) ∧ confOV (1/2) ≤ 1) ∧
      (0 ≤ confWiki (1/2) ∧ confWiki (1/2) ≤ 1)) ∧
    (("https://upload.wikimedia.org/wikipedia/commons/8/8a/Banana-Single.jpg", "banana",
        (35 : ℚ)/100) : String × String × ℚ).2.2 = 35/100 ∧
    ((⟨"x", none, none, none, none⟩ : Product) ∈ (⟨[], [], []⟩ : Db).products ∨
      (⟨"x", none, none, none, none⟩ : Product).imageConfidence = none) :=
  ⟨C8_confidence_in_unit_interval.1 (1/2) (by norm_num) (by norm_num),
   C8_confidence_in_unit_interval.2.1 "Bananas"
     ("https://upload.wikimedia.org/wikipedia/commons/8/8a/Banana-Single.jpg", "banana",
       (35 : ℚ)/100) rfl,
   C8_confidence_in_unit_interval.2.2 ⟨[], [], []⟩ "s" "f"
     [⟨some "x", none, none, none, none, none⟩] ⟨"x", none, none, none, none⟩
     (by exact List.mem_singleton.mpr rfl)⟩

/-- C9: a raised (network/parse) failure on any single catalog query is
observably identical to that query returning no candidates — for each of
the three search functions, and for the whole per-product pipeline — so the
pipeline proceeds to the next source instead of aborting. -/
theorem C9_failures_swallowed :
    (∀ (sim : String → String → ℚ) (o o' : String → Option (List OffEntry)) (pname : String),
      (∀ q, o q = o' q ∨ (o q = none ∧ o' q = some [])) →
      search_openfoodfacts sim o pname = search_openfoodfacts sim o' pname) ∧
    (∀ (sim : String → String → ℚ) (o o' : String → Option (List OvEntry)) (pname : String),
      (∀ q, o q = o' q ∨ (o q = none ∧ o' q = some [])) →
      search_openverse sim o pname = search_openverse sim o' pname) ∧
    (∀ (sim : String → String → ℚ) (o o' : String → Option (List WikiPage)) (pname : String),
      (∀ q, o q = o' q ∨ (o q = none ∧ o' q = some [])) →
      search_wikipedia sim o pname = search_wikipedia sim o' pname) ∧
    (∀ (sim : String → String → ℚ) (oA oA' : String → Option (List OffEntry))
       (oB oB' : String → Option (List OvEntry)) (oW oW' : String → Option (List WikiPage))
       (pname : String),
      (∀ q, oA q = oA' q ∨ (oA q = none ∧ oA' q = some [])) →
      (∀ q, oB q = oB' q ∨ (oB q = none ∧ oB' q = some [])) →
      (∀ q, oW q = oW' q ∨ (oW q = none ∧ oW' q = some [])) →
      resolveProduct (search_openfoodfacts sim oA pname) (search_openverse sim oB pname)
        (search_wikipedia sim oW pname) pname =
      resolveProduct (search_openfoodfacts sim oA' pname) (search_openverse sim oB' pname)
        (search_wikipedia sim oW' pname) pname) := by
  refine ⟨?_, ?_, ?_, ?_⟩
  · intro sim o o' pname h
    exact search_openfoodfacts_raise_eq_empty sim pname h
  · intro sim o o' pname h
    exact search_openverse_raise_eq_empty sim pname h
  · intro sim o o' pname h
    exact search_wikipedia_raise_eq_empty sim pname h
  · intro sim oA oA' oB oB' oW oW' pname hA hB hW
    rw [search_openfoodfacts_raise_eq_empty sim pname hA,
      search_openverse_raise_eq_empty sim pname hB,
      search_wikipedia_raise_eq_empty sim pname hW]

/-- Witness for C9: all three catalogs raising versus all three returning
empty candidate lists, at a concrete name and similarity function. -/
theorem C9_witness :
    search_openfoodfacts (fun _ _ => 0) (fun _ => none) "x"
      = search_openfoodfacts (fun _ _ => 0) (fun _ => some []) "x" ∧
    search_openverse (fun _ _ => 0) (fun _ => none) "x"
      = search_openverse (fun _ _ => 0) (fun _ => some []) "x" ∧
    search_wikipedia (fun _ _ => 0) (fun _ => none) "x"
      = search_wikipedia (fun _ _ => 0) (fun _ => some []) "x" ∧
    resolveProduct (search_openfoodfacts (fun _ _ => 0) (fun _ => none) "x")
        (search_openverse (fun _ _ => 0) (fun _ => none) "x")
        (search_wikipedia (fun _ _ => 0) (fun _ => none) "x") "x"
      = resolveProduct (search_openfoodfacts (fun _ _ => 0) (fun _ => some []) "x")
          (search_openverse (fun _ _ => 0) (fun _ => some []) "x")
          (search_wikipedia (fun _ _ => 0) (fun _ => some []) "x") "x" :=
  ⟨C9_failures_swallowed.1 (fun _ _ => 0) (fun _ => none) (fun _ => some []) "x"
     (fun q => Or.inr ⟨rfl, rfl⟩),
   C9_failures_swallowed.2.1 (fun _ _ => 0) (fun _ => none) (fun _ => some []) "x"
     (fun q => Or.inr ⟨rfl, rfl⟩),
   C9_failures_swallowed.2.2.1 (fun _ _ => 0) (fun _ => none) (fun _ => some []) "x"
     (fun q => Or.inr ⟨rfl, rfl⟩),
   C9_failures_swallowed.2.2.2 (fun _ _ => 0) (fun _ => none) (fun _ => some [])
     (fun _ => none) (fun _ => some []) (fun _ => none) (fun _ => some []) "x"
     (fun q => Or.inr ⟨rfl, rfl⟩) (fun q => Or.inr ⟨rfl, rfl⟩) (fun q => Or.inr ⟨rfl, rfl⟩)⟩

/-- C10: price parsing is total in this embedding (a plain function on all
strings), and every value it returns is non-negative — the matched pattern
admits digits only, so the Importer can never store a negative price. -/
theorem C10_parse_price_nonneg (s : String) (v : ℚ) (h : parse_price s = some v) : 0 ≤ v :=
  parse_price_nonneg h

/-- Witness for C10 at `"$3.99"`. -/
theorem C10_witness : (0 : ℚ) ≤ groupVal (['3'], ['9', '9']) :=
  C10_parse_price_nonneg "$3.99" (groupVal (['3'], ['9', '9'])) rfl

